import Mathlib

/-!
Verification development for the serial-scanner repository.

The embedding models the two verified components:
* `src/qr-utils.js` — the QR payload codec (CRC32 checksum, JSON encode/decode);
* `src/scanner.js`  — the scanner session state machine (visible-code tracker,
  found-set bookkeeping, debounced border state).

JavaScript strings are modelled as lists of UTF-16 code units (`JStr`, natural
numbers; genuine JS code units are below 2^16 and theorems that depend on that
carry it as a hypothesis).  JSON values are modelled by the inductive `JsValue`.
Timestamps (`Date.now()`) are natural numbers passed explicitly.
-/

set_option maxRecDepth 10000

/-- A JavaScript string: its sequence of UTF-16 code units. -/
abbrev JStr := List Nat

/-- A JavaScript value as producible by `JSON.parse`, extended with
`jundef` (the `undefined` returned by a property access that finds nothing;
`JSON.parse` itself never produces it).  A number is kept as its raw numeral
token: `decodeQRPayload` only ever tests a number for truthiness or
concatenates it into a checksum input, and no claim depends on numeric
normalisation (e.g. `1e2` vs `100`), which this model does not perform. -/
inductive JsValue where
  | jnull
  | jundef
  | jbool (b : Bool)
  | jnum (raw : JStr)
  | jstr (s : JStr)
  | jarr (elems : List JsValue)
  | jobj (fields : List (JStr × JsValue))

/-- Is every mantissa digit of a raw JSON numeral token zero?  Scans the
integer and fraction parts (everything before `e`/`E`), skipping `-` and `.`;
a JSON number is falsy exactly when its value is zero, which for the JSON
numeral grammar happens exactly when all mantissa digits are `0`. -/
def numTokenIsZero : JStr → Bool
  | [] => true
  | c :: rest =>
    if c = 101 ∨ c = 69 then true
    else if c = 45 ∨ c = 46 then numTokenIsZero rest
    else if c = 48 then numTokenIsZero rest
    else false

/-- JavaScript truthiness of a value (`!v` is `true` exactly on falsy values):
`undefined`, `null`, `false`, `0`, and the empty string are falsy; every
object and array is truthy. -/
def truthy : JsValue → Bool
  | .jnull => false
  | .jundef => false
  | .jbool b => b
  | .jnum raw => ¬ numTokenIsZero raw
  | .jstr s => ¬ s.isEmpty
  | .jarr _ => true
  | .jobj _ => true

mutual

/-- String conversion as performed by the `+` operator when the other operand
is a string.  Arrays stringify as their comma-joined elements, plain objects
as `[object Object]`.  (Only truthy values reach the one concatenation in
`decodeQRPayload`, and in every claim the value there is already a string.) -/
def jsToString : JsValue → JStr
  | .jnull => [110, 117, 108, 108]
  | .jundef => [117, 110, 100, 101, 102, 105, 110, 101, 100]
  | .jbool true => [116, 114, 117, 101]
  | .jbool false => [102, 97, 108, 115, 101]
  | .jnum raw => raw
  | .jstr s => s
  | .jarr elems => jsToStringJoin elems
  | .jobj _ => [91, 111, 98, 106, 101, 99, 116, 32, 79, 98, 106, 101, 99, 116, 93]

/-- `Array.prototype.toString` joins the element strings with commas. -/
def jsToStringJoin : List JsValue → JStr
  | [] => []
  | [x] => jsToString x
  | x :: y :: rest => jsToString x ++ 44 :: jsToStringJoin (y :: rest)

end

/-- The JavaScript exception raised by the code under scrutiny: a `TypeError`
from reading a property of `null`. -/
inductive JsError where
  | typeError
deriving DecidableEq

/-- Last-wins lookup of a key among an object's fields, as assembled by
`JSON.parse` (a duplicated key keeps the value of its last occurrence). -/
def lookupLast : List (JStr × JsValue) → JStr → JsValue
  | [], _ => .jundef
  | (k, v) :: rest, key =>
    match lookupLast rest key with
    | .jundef => if k = key then v else .jundef
    | r => r

/-- `v.k` — property access.  On `null` (or `undefined`) it throws a
`TypeError`; on primitives and arrays the named properties accessed by the
codec do not exist, so the result is `undefined`. -/
def propAccess (v : JsValue) (key : JStr) : Except JsError JsValue :=
  match v with
  | .jnull => .error .typeError
  | .jundef => .error .typeError
  | .jobj fields => .ok (lookupLast fields key)
  | _ => .ok (.jundef : JsValue)

/-! ## CRC32 (`calculateCRC32` in `src/qr-utils.js`) -/

/-- One bit-round of the table generator:
`crc = (crc & 1) ? (0xEDB88320 ^ (crc >>> 1)) : (crc >>> 1)`. -/
def crc32Round (crc : Nat) : Nat :=
  if crc % 2 = 1 then 0xEDB88320 ^^^ (crc / 2) else crc / 2

/-- `n` iterations of `crc32Round` (the table generator runs 8). -/
def crc32Rounds : Nat → Nat → Nat
  | 0, crc => crc
  | n + 1, crc => crc32Rounds n (crc32Round crc)

/-- `CRC32_TABLE[i]`: the byte `i` pushed through 8 rounds  (the source
materialises the 256 entries eagerly; the entries are this function at
`i = 0, …, 255`). -/
def CRC32_TABLE (i : Nat) : Nat := crc32Rounds 8 i

/-- One byte-step of the checksum loop:
`crc = CRC32_TABLE[(crc ^ byte) & 0xFF] ^ (crc >>> 8)` with
`byte = str.charCodeAt(i) & 0xFF`. -/
def crc32Update (crc u : Nat) : Nat :=
  (CRC32_TABLE ((crc ^^^ (u % 256)) % 256)) ^^^ (crc / 256)

/-- Lowercase hex digit of a nibble (`0…9` then `a…f`). -/
def hexDigitChar (d : Nat) : Nat := if d < 10 then 48 + d else 87 + d

/-- `n.toString(16)` (lowercase, no leading zeros), by fuelled division;
fuel 8 is exact for every `n < 16^8 = 2^32`, and the checksum is always
below `2^32`. -/
def toHexAux : Nat → Nat → JStr
  | 0, _ => []
  | fuel + 1, n =>
    if n < 16 then [hexDigitChar n]
    else toHexAux fuel (n / 16) ++ [hexDigitChar (n % 16)]

/-- `n.toString(16)` for the 32-bit checksum value. -/
def toHexString (n : Nat) : JStr := toHexAux 8 n

/-- `.padStart(8, '0')`. -/
def padStart8 (l : JStr) : JStr := List.replicate (8 - l.length) 48 ++ l

/-- `calculateCRC32(str)`: fold the byte-step over the code units (each
masked to its low byte) starting from `0xFFFFFFFF`, complement, and render
as 8 zero-padded lowercase hex digits. -/
def calculateCRC32 (str : JStr) : JStr :=
  padStart8 (toHexString ((str.foldl crc32Update 0xFFFFFFFF) ^^^ 0xFFFFFFFF))

/-! ## JSON serialisation (`JSON.stringify`, as used by `encodeQRPayload`) -/

/-- Four lowercase hex digits of a code unit below `2^16` (the form emitted
inside a `\u` escape). -/
def hex4 (c : Nat) : JStr :=
  [hexDigitChar (c / 4096 % 16), hexDigitChar (c / 256 % 16),
   hexDigitChar (c / 16 % 16), hexDigitChar (c % 16)]

/-- Body of a quoted JSON string as produced by well-formed `JSON.stringify`:
`"` and `\` and the control characters get escaped (short escapes for
backspace, tab, newline, form feed, carriage return, `\u00XX` otherwise),
surrogate pairs pass through literally, lone surrogates are `\u`-escaped,
and every other code unit is emitted as itself. -/
def escapeBody : JStr → JStr
  | [] => []
  | c :: rest =>
    if c = 34 then 92 :: 34 :: escapeBody rest
    else if c = 92 then 92 :: 92 :: escapeBody rest
    else if c = 8 then 92 :: 98 :: escapeBody rest
    else if c = 9 then 92 :: 116 :: escapeBody rest
    else if c = 10 then 92 :: 110 :: escapeBody rest
    else if c = 12 then 92 :: 102 :: escapeBody rest
    else if c = 13 then 92 :: 114 :: escapeBody rest
    else if c < 32 then 92 :: 117 :: (hex4 c ++ escapeBody rest)
    else if 0xD800 ≤ c ∧ c < 0xDC00 then
      match rest with
      | c2 :: rest2 =>
        if 0xDC00 ≤ c2 ∧ c2 < 0xE000 then c :: c2 :: escapeBody rest2
        else 92 :: 117 :: (hex4 c ++ escapeBody (c2 :: rest2))
      | [] => 92 :: 117 :: hex4 c
    else if 0xDC00 ≤ c ∧ c < 0xE000 then 92 :: 117 :: (hex4 c ++ escapeBody rest)
    else c :: escapeBody rest

/-- A JSON string literal: quote, escaped body, quote. -/
def quoteJSONString (s : JStr) : JStr := 34 :: escapeBody s ++ [34]

mutual

/-- `JSON.stringify` on a parsed-JSON value (no spacing).  `jundef` cannot
occur in a value being stringified here; its arm is arbitrary.  Numbers are
re-emitted as their raw token (see `JsValue.jnum`). -/
def jsonStringify : JsValue → JStr
  | .jnull => [110, 117, 108, 108]
  | .jundef => [110, 117, 108, 108]
  | .jbool true => [116, 114, 117, 101]
  | .jbool false => [102, 97, 108, 115, 101]
  | .jnum raw => raw
  | .jstr s => quoteJSONString s
  | .jarr elems => 91 :: jsonStringifyElems elems ++ [93]
  | .jobj fields => 123 :: jsonStringifyFields fields ++ [125]

/-- Comma-joined stringified array elements. -/
def jsonStringifyElems : List JsValue → JStr
  | [] => []
  | [x] => jsonStringify x
  | x :: y :: rest => jsonStringify x ++ 44 :: jsonStringifyElems (y :: rest)

/-- Comma-joined `"key":value` members. -/
def jsonStringifyFields : List (JStr × JsValue) → JStr
  | [] => []
  | [(k, v)] => quoteJSONString k ++ 58 :: jsonStringify v
  | (k, v) :: p :: rest =>
    quoteJSONString k ++ 58 :: jsonStringify v ++ 44 :: jsonStringifyFields (p :: rest)

end

/-- The fixed source tag `lablup-inventory`. -/
def srcTag : JStr := [108, 97, 98, 108, 117, 112, 45, 105, 110, 118, 101, 110, 116, 111, 114, 121]

/-- Key `s`. -/
def keyS : JStr := [115]

/-- Key `src`. -/
def keySrc : JStr := [115, 114, 99]

/-- Key `cs`. -/
def keyCs : JStr := [99, 115]

/-- The payload record `{ s, src, cs }` with the given field values
(insertion order as in `encodeQRPayload`). -/
def mkPayload (s src cs : JStr) : JsValue :=
  .jobj [(keyS, .jstr s), (keySrc, .jstr src), (keyCs, .jstr cs)]

/-- `encodeQRPayload(serialNumber)`: build `{ s, src }`, attach the CRC32 of
`s + src` as `cs`, and serialise to JSON text. -/
def encodeQRPayload (serialNumber : JStr) : JStr :=
  jsonStringify (mkPayload serialNumber srcTag (calculateCRC32 (serialNumber ++ srcTag)))

/-! ## JSON parsing (`JSON.parse`, as used by `decodeQRPayload`) -/

/-- Skip JSON insignificant whitespace (space, tab, line feed, carriage
return). -/
def skipWs : JStr → JStr
  | [] => []
  | c :: rest => if c = 32 ∨ c = 9 ∨ c = 10 ∨ c = 13 then skipWs rest else c :: rest

/-- Value of a hex digit character, if it is one. -/
def hexVal (c : Nat) : Option Nat :=
  if 48 ≤ c ∧ c ≤ 57 then some (c - 48)
  else if 97 ≤ c ∧ c ≤ 102 then some (c - 87)
  else if 65 ≤ c ∧ c ≤ 70 then some (c - 55)
  else none

/-- Prepend a code unit to the string half of a string-parse result. -/
def consUnit (u : Nat) : Option (JStr × JStr) → Option (JStr × JStr)
  | some (s, r) => some (u :: s, r)
  | none => none

/-- Parse the body of a JSON string literal (the opening quote already
consumed): returns the decoded units and the input after the closing quote.
Handles the JSON escapes (including `\uXXXX`); rejects unescaped control
characters and an unterminated literal. -/
def parseStringBody : JStr → Option (JStr × JStr)
  | [] => none
  | c :: rest =>
    if c = 34 then some ([], rest)
    else if c = 92 then
      match rest with
      | [] => none
      | e :: rest2 =>
        if e = 34 then consUnit 34 (parseStringBody rest2)
        else if e = 92 then consUnit 92 (parseStringBody rest2)
        else if e = 47 then consUnit 47 (parseStringBody rest2)
        else if e = 98 then consUnit 8 (parseStringBody rest2)
        else if e = 102 then consUnit 12 (parseStringBody rest2)
        else if e = 110 then consUnit 10 (parseStringBody rest2)
        else if e = 114 then consUnit 13 (parseStringBody rest2)
        else if e = 116 then consUnit 9 (parseStringBody rest2)
        else if e = 117 then
          match rest2 with
          | h1 :: h2 :: h3 :: h4 :: rest3 =>
            match hexVal h1, hexVal h2, hexVal h3, hexVal h4 with
            | some a, some b, some c3, some d =>
              consUnit (4096 * a + 256 * b + 16 * c3 + d) (parseStringBody rest3)
            | _, _, _, _ => none
          | _ => none
        else none
    else if c < 32 then none
    else consUnit c (parseStringBody rest)

/-- Longest prefix of decimal digits. -/
def takeDigits : JStr → JStr × JStr
  | [] => ([], [])
  | c :: rest =>
    if 48 ≤ c ∧ c ≤ 57 then
      let p := takeDigits rest
      (c :: p.1, p.2)
    else ([], c :: rest)

/-- JSON integer part: `0` or a nonzero digit followed by digits. -/
def parseIntPart : JStr → Option (JStr × JStr)
  | [] => none
  | c :: rest =>
    if c = 48 then some ([48], rest)
    else if 49 ≤ c ∧ c ≤ 57 then
      let p := takeDigits rest
      some (c :: p.1, p.2)
    else none

/-- Optional JSON fraction part `.digits`. -/
def parseFracPart : JStr → Option (JStr × JStr)
  | 46 :: rest =>
    match takeDigits rest with
    | ([], _) => none
    | (ds, r) => some (46 :: ds, r)
  | l => some ([], l)

/-- Optional JSON exponent part `[eE][+-]?digits`. -/
def parseExpPart : JStr → Option (JStr × JStr)
  | c :: rest =>
    if c = 101 ∨ c = 69 then
      match rest with
      | s :: rest2 =>
        if s = 43 ∨ s = 45 then
          match takeDigits rest2 with
          | ([], _) => none
          | (ds, r) => some (c :: s :: ds, r)
        else
          match takeDigits rest with
          | ([], _) => none
          | (ds, r) => some (c :: ds, r)
      | [] => none
    else some ([], c :: rest)
  | [] => some ([], [])

/-- A full JSON number token (`-? int frac? exp?`), returned as its raw text. -/
def parseNumberToken (l : JStr) : Option (JStr × JStr) :=
  match l with
  | 45 :: rest => do
    let (i, r1) ← parseIntPart rest
    let (f, r2) ← parseFracPart r1
    let (e, r3) ← parseExpPart r2
    pure (45 :: (i ++ f ++ e), r3)
  | _ => do
    let (i, r1) ← parseIntPart l
    let (f, r2) ← parseFracPart r1
    let (e, r3) ← parseExpPart r2
    pure (i ++ f ++ e, r3)

/-- What a recursive-descent step is asked to produce: a value, the members
of an object (through the closing brace), or the elements of an array
(through the closing bracket). -/
inductive PMode where
  | val
  | members
  | elems

/-- Result of a recursive-descent step. -/
inductive PRes where
  | v (x : JsValue)
  | fs (x : List (JStr × JsValue))
  | es (x : List JsValue)

/-- Fuelled recursive-descent JSON parser.  Every recursive call runs on
strictly smaller fuel and is made only after consuming at least one code
unit, so fuel `length + 1` (as supplied by `jsonParse`) is always enough. -/
def parseV : Nat → PMode → JStr → Option (PRes × JStr)
  | 0, _, _ => none
  | fuel + 1, .val, input =>
    match skipWs input with
    | [] => none
    | c :: rest =>
      if c = 110 then
        match rest with
        | 117 :: 108 :: 108 :: r => some (.v .jnull, r)
        | _ => none
      else if c = 116 then
        match rest with
        | 114 :: 117 :: 101 :: r => some (.v (.jbool true), r)
        | _ => none
      else if c = 102 then
        match rest with
        | 97 :: 108 :: 115 :: 101 :: r => some (.v (.jbool false), r)
        | _ => none
      else if c = 34 then
        match parseStringBody rest with
        | some (s, r) => some (.v (.jstr s), r)
        | none => none
      else if c = 123 then
        match skipWs rest with
        | 125 :: r => some (.v (.jobj []), r)
        | r2 =>
          match parseV fuel .members r2 with
          | some (.fs fields, r3) => some (.v (.jobj fields), r3)
          | _ => none
      else if c = 91 then
        match skipWs rest with
        | 93 :: r => some (.v (.jarr []), r)
        | r2 =>
          match parseV fuel .elems r2 with
          | some (.es es, r3) => some (.v (.jarr es), r3)
          | _ => none
      else
        match parseNumberToken (c :: rest) with
        | some (tok, r) => some (.v (.jnum tok), r)
        | none => none
  | fuel + 1, .members, input =>
    match skipWs input with
    | 34 :: rest =>
      match parseStringBody rest with
      | none => none
      | some (key, r1) =>
        match skipWs r1 with
        | 58 :: r2 =>
          match parseV fuel .val r2 with
          | some (.v v, r3) =>
            (match skipWs r3 with
             | 44 :: r4 =>
               match parseV fuel .members r4 with
               | some (.fs fields, r5) => some (.fs ((key, v) :: fields), r5)
               | _ => none
             | 125 :: r4 => some (.fs [(key, v)], r4)
             | _ => none)
          | _ => none
        | _ => none
    | _ => none
  | fuel + 1, .elems, input =>
    match parseV fuel .val input with
    | some (.v v, r1) =>
      (match skipWs r1 with
       | 44 :: r2 =>
         match parseV fuel .elems r2 with
         | some (.es es, r3) => some (.es (v :: es), r3)
         | _ => none
       | 93 :: r2 => some (.es [v], r2)
       | _ => none)
    | _ => none

/-- `JSON.parse`: parse one value and require only whitespace after it. -/
def jsonParse (input : JStr) : Option JsValue :=
  match parseV (input.length + 1) .val input with
  | some (.v v, rest) => if (skipWs rest).isEmpty then some v else none
  | _ => none

/-! ## `decodeQRPayload` (`src/qr-utils.js`) -/

/-- The decode error strings of the source, as an enumeration (spec names in
parentheses): `Not JSON` (NotStructured), `Missing required fields`
(MissingFields), `Unknown source` (UnknownSource), `Checksum mismatch`
(ChecksumMismatch). -/
inductive DecodeError where
  | notJson
  | missingFields
  | unknownSource
  | checksumMismatch
deriving DecidableEq

/-- The record returned by `decodeQRPayload`:
`{ valid, serialNumber, error? }`. -/
structure DecodeResult where
  valid : Bool
  serialNumber : JsValue
  error : Option DecodeError

/-- `v === str` for a string right-hand side: JavaScript strict equality with
a string is true exactly for the identical string value. -/
def strictEqStr (v : JsValue) (t : JStr) : Bool :=
  match v with
  | .jstr s => s = t
  | _ => false

/-- `decodeQRPayload(rawData)`.  Stage 1 `JSON.parse`; stage 2 truthiness of
the three fields (`!payload.s || !payload.src || !payload.cs` — a property
read throws a `TypeError` when the parsed payload is `null`, which the
`Except` layer models); stage 3 `payload.src !== "lablup-inventory"`
(strict equality with a string); stage 4 recompute `calculateCRC32(payload.s
+ payload.src)` and compare with `payload.cs` by strict equality. -/
def decodeQRPayload (rawData : JStr) : Except JsError DecodeResult :=
  match jsonParse rawData with
  | none => .ok ⟨false, .jnull, some .notJson⟩
  | some payload =>
    match propAccess payload keyS with
    | .error e => .error e
    | .ok s =>
      match propAccess payload keySrc with
      | .error e => .error e
      | .ok src =>
        match propAccess payload keyCs with
        | .error e => .error e
        | .ok cs =>
          if ¬ truthy s ∨ ¬ truthy src ∨ ¬ truthy cs then
            .ok ⟨false, .jnull, some .missingFields⟩
          else if ¬ strictEqStr src srcTag then
            .ok ⟨false, .jnull, some .unknownSource⟩
          else if ¬ strictEqStr cs (calculateCRC32 (jsToString s ++ jsToString src)) then
            .ok ⟨false, .jnull, some .checksumMismatch⟩
          else
            .ok ⟨true, s, none⟩

/-! ## Scanner session (`src/scanner.js`)

The module-level mutable variables become the fields of `ScannerState`; the
DOM, camera and canvas collaborators are outside the model.  Each operation
is a pure function from a state (plus the current `Date.now()` where the
source reads it) to a state and the list of callback invocations it performs
(the `onFoundCallback` and `onBorderStateChange` callbacks are modelled as
installed, which is how `ui.js` runs the scanner; `navigator.vibrate` is the
`haptic` event). -/

/-- The debounced border state. -/
inductive BorderState where
  | idle
  | searching
  | found
deriving DecidableEq

/-- A detected corner point (coordinates abstracted to integers; no claim
depends on geometry arithmetic). -/
structure Pt where
  x : Int
  y : Int
deriving DecidableEq

/-- A detector bounding rectangle. -/
structure Rect where
  x : Int
  y : Int
  width : Int
  height : Int
deriving DecidableEq

/-- The geometry stored in a visible-code entry: the axis-aligned box plus
the corner points when the detector supplied them. -/
structure Bounds where
  x : Int
  y : Int
  width : Int
  height : Int
  cornerPoints : Option (List Pt)
deriving DecidableEq

/-- A visible-code entry: `{ bounds, lastSeen, isTarget }`. -/
structure VisEntry where
  bounds : Option Bounds
  lastSeen : Nat
  isTarget : Bool

/-- `Map.set` key sameness (SameValueZero).  Primitives compare by value
(numbers by raw token, see `JsValue.jnum`); two object or array values
parsed by different `JSON.parse` calls are distinct references, so they are
never the same key. -/
def sameKey (a b : JsValue) : Bool :=
  match a, b with
  | .jnull, .jnull => true
  | .jundef, .jundef => true
  | .jbool x, .jbool y => x = y
  | .jnum x, .jnum y => x = y
  | .jstr x, .jstr y => x = y
  | _, _ => false

/-- `Map.set`: replace in place if the key is present, else append (JS map
iteration order is insertion order). -/
def mapSet (k : JsValue) (v : VisEntry) : List (JsValue × VisEntry) → List (JsValue × VisEntry)
  | [] => [(k, v)]
  | (k1, v1) :: rest =>
    if sameKey k1 k then (k1, v) :: rest else (k1, v1) :: mapSet k v rest

/-- The scanner module state: `isScanning`, `targetSerials`, `foundSerials`
(JS `Set`s keep insertion order, so both are duplicate-free lists),
`visibleQRs`, `currentBorderState`, `lastFoundTime`. -/
structure ScannerState where
  isScanning : Bool
  targetSerials : List JStr
  foundSerials : List JStr
  visibleQRs : List (JsValue × VisEntry)
  currentBorderState : BorderState
  lastFoundTime : Nat

/-- The state of the module as loaded. -/
def initState : ScannerState :=
  ⟨false, [], [], [], .idle, 0⟩

/-- A callback invocation or haptic request performed by an operation. -/
inductive ScanEvent where
  | found (serial : JStr) (snapshot : List JStr)
  | border (b : BorderState)
  | haptic
deriving DecidableEq

/-- A detected barcode as delivered by the detector: decoded text plus
corner points and/or a bounding box. -/
structure Barcode where
  rawValue : JStr
  cornerPoints : Option (List Pt)
  boundingBox : Option Rect

/-- The bounds extraction of `processBarcode`: prefer four corner points
(axis-aligned hull via `Math.min`/`Math.max`), fall back to the bounding
box, else `null`. -/
def extractBounds (bc : Barcode) : Option Bounds :=
  match bc.cornerPoints with
  | some [p1, p2, p3, p4] =>
    let xmin := min p1.x (min p2.x (min p3.x p4.x))
    let ymin := min p1.y (min p2.y (min p3.y p4.y))
    let xmax := max p1.x (max p2.x (max p3.x p4.x))
    let ymax := max p1.y (max p2.y (max p3.y p4.y))
    some ⟨xmin, ymin, xmax - xmin, ymax - ymin, some [p1, p2, p3, p4]⟩
  | _ =>
    match bc.boundingBox with
    | some bb => some ⟨bb.x, bb.y, bb.width, bb.height, none⟩
    | none => none

/-- `processBarcode(barcode)` at time `now` (`Date.now()`).  A decode
exception (`TypeError` on a payload parsing to `null`) propagates to
`scanFrame`, whose `try`/`catch` swallows it with no state change, which is
what the first arm returns.  An invalid decode is silently ignored.  A valid
decode upserts the visible entry and, for a first-time target match, appends
to `foundSerials`, requests the haptic pulse and fires `onFoundCallback`
with the serial and `Array.from(foundSerials)`. -/
def processBarcode (now : Nat) (bc : Barcode) (st : ScannerState) :
    ScannerState × List ScanEvent :=
  match decodeQRPayload bc.rawValue with
  | .error _ => (st, [])
  | .ok parsed =>
    if ¬ parsed.valid then (st, [])
    else
      let serial := parsed.serialNumber
      let isTarget :=
        match serial with
        | .jstr s => st.targetSerials.contains s
        | _ => false
      let st1 := { st with
        visibleQRs := mapSet serial ⟨extractBounds bc, now, isTarget⟩ st.visibleQRs }
      match serial, isTarget with
      | .jstr s, true =>
        if st1.foundSerials.contains s then (st1, [])
        else
          let f := st1.foundSerials ++ [s]
          ({ st1 with foundSerials := f }, [.haptic, .found s f])
      | _, _ => (st1, [])

/-- `QR_VISIBILITY_TIMEOUT` (ms). -/
def QR_VISIBILITY_TIMEOUT : Nat := 500

/-- `BORDER_DEBOUNCE_MS`. -/
def BORDER_DEBOUNCE_MS : Nat := 300

/-- The per-entry loop of `drawOverlays`: delete entries with
`now - lastSeen > QR_VISIBILITY_TIMEOUT`, report whether a surviving entry
is a target (the drawing itself is canvas output, outside the model). -/
def drawPass (now : Nat) : List (JsValue × VisEntry) → List (JsValue × VisEntry) × Bool
  | [] => ([], false)
  | (k, e) :: rest =>
    let p := drawPass now rest
    if now - e.lastSeen > QR_VISIBILITY_TIMEOUT then p
    else ((k, e) :: p.1, e.isTarget || p.2)

/-- The `hasVisibleTarget` local of `drawOverlays`: some non-expired entry
has `isTarget`. -/
def hasVisibleTarget (now : Nat) (st : ScannerState) : Bool :=
  (drawPass now st.visibleQRs).2

/-- The value of `lastFoundTime` after the loop of `drawOverlays` (the loop
assigns `now` whenever it meets a live target entry). -/
def lastFoundAfter (now : Nat) (st : ScannerState) : Nat :=
  if hasVisibleTarget now st then now else st.lastFoundTime

/-- The `newState` local of `drawOverlays`: `found` while a target is
visible or within the debounce window, else `searching`. -/
def borderAfter (now : Nat) (st : ScannerState) : BorderState :=
  if hasVisibleTarget now st then .found
  else if now - lastFoundAfter now st < BORDER_DEBOUNCE_MS then .found
  else .searching

/-- `drawOverlays` at time `now` (`Date.now()`), state part: prune expired
entries, set `lastFoundTime := now` when a visible target remains, and —
when the target set is non-empty — recompute the debounced border state,
firing `onBorderStateChange` only if it changed. -/
def drawOverlays (now : Nat) (st : ScannerState) : ScannerState × List ScanEvent :=
  if st.targetSerials ≠ [] then
    if borderAfter now st ≠ st.currentBorderState then
      ({ st with visibleQRs := (drawPass now st.visibleQRs).1,
                 lastFoundTime := lastFoundAfter now st,
                 currentBorderState := borderAfter now st },
       [.border (borderAfter now st)])
    else
      ({ st with visibleQRs := (drawPass now st.visibleQRs).1,
                 lastFoundTime := lastFoundAfter now st }, [])
  else
    ({ st with visibleQRs := (drawPass now st.visibleQRs).1,
               lastFoundTime := lastFoundAfter now st }, [])

/-- `stopScanner()`: when scanning, stop the loops and the stream (outside
the model), clear `visibleQRs`, set the border state to `idle` and report
it.  `foundSerials` and `lastFoundTime` are left as they are. -/
def stopScanner (st : ScannerState) : ScannerState × List ScanEvent :=
  if ¬ st.isScanning then (st, [])
  else
    ({ st with isScanning := false, visibleQRs := [], currentBorderState := .idle },
     [.border .idle])

/-- Is a code unit JavaScript whitespace for `String.prototype.trim`
(WhiteSpace or LineTerminator)? -/
def jsWhitespace (c : Nat) : Bool :=
  c = 9 ∨ c = 10 ∨ c = 11 ∨ c = 12 ∨ c = 13 ∨ c = 32 ∨ c = 0xA0 ∨ c = 0x1680 ∨
  (0x2000 ≤ c ∧ c ≤ 0x200A) ∨ c = 0x2028 ∨ c = 0x2029 ∨ c = 0x202F ∨
  c = 0x205F ∨ c = 0x3000 ∨ c = 0xFEFF

/-- `s.trim()`. -/
def jsTrim (s : JStr) : JStr :=
  ((s.dropWhile jsWhitespace).reverse.dropWhile jsWhitespace).reverse

/-- `input.split(/[\n,]/)`: split on line feeds and commas (the result is
never empty; splitting the empty string gives one empty piece). -/
def splitNlComma : JStr → List JStr
  | [] => [[]]
  | c :: rest =>
    let r := splitNlComma rest
    if c = 10 ∨ c = 44 then [] :: r
    else
      match r with
      | h :: t => (c :: h) :: t
      | [] => [[c]]

/-- The serial list parsed by `setTargetSerials`: split, trim, drop empties. -/
def parseSerialInput (input : JStr) : List JStr :=
  ((splitNlComma input).map jsTrim).filter (fun s => ¬ s.isEmpty)

/-- `new Set(list)` keeps the first occurrence of each element. -/
def dedupKeepFirst : List JStr → List JStr
  | [] => []
  | x :: rest =>
    let r := dedupKeepFirst rest
    if rest.contains x then
      x :: r.filter (fun y => y ≠ x)
    else x :: r

/-- `setTargetSerials(input)`: replace the target set, clear `foundSerials`,
`visibleQRs` and `lastFoundTime`, and — while scanning — set and report
`searching` (or `idle` for an empty list) unconditionally.  Returns the
parsed-serial count as the source does. -/
def setTargetSerials (input : JStr) (st : ScannerState) :
    ScannerState × List ScanEvent × Nat :=
  let serials := parseSerialInput input
  let st1 := { st with
    targetSerials := dedupKeepFirst serials,
    foundSerials := [],
    visibleQRs := [],
    lastFoundTime := 0 }
  if st.isScanning then
    let b : BorderState := if serials.length > 0 then .searching else .idle
    ({ st1 with currentBorderState := b }, [.border b], serials.length)
  else (st1, [], serials.length)

/-- `resetFoundSerials()`: clear `foundSerials`, `visibleQRs`,
`lastFoundTime`; while scanning with a non-empty target set, set and report
`searching` unconditionally. -/
def resetFoundSerials (st : ScannerState) : ScannerState × List ScanEvent :=
  let st1 := { st with foundSerials := [], visibleQRs := [], lastFoundTime := 0 }
  if st.isScanning ∧ st.targetSerials ≠ [] then
    ({ st1 with currentBorderState := .searching }, [.border .searching])
  else (st1, [])

/-- `startScanner` (successful camera acquisition; DOM and stream effects
are outside the model).  A failed acquisition throws before `isScanning` is
set and changes none of the modelled state. -/
def startScanner (st : ScannerState) : ScannerState × List ScanEvent :=
  if st.isScanning then (st, [])
  else
    let st1 := { st with isScanning := true }
    if st.targetSerials ≠ [] then
      ({ st1 with currentBorderState := .searching }, [.border .searching])
    else (st1, [])

/-- One operation on the scanner session. -/
inductive ScanOp where
  | barcode (now : Nat) (bc : Barcode)
  | draw (now : Nat)
  | setTargets (input : JStr)
  | reset
  | stop
  | start

/-- Apply one operation. -/
def stepOp : ScanOp → ScannerState → ScannerState × List ScanEvent
  | .barcode now bc, st => processBarcode now bc st
  | .draw now, st => drawOverlays now st
  | .setTargets input, st =>
    let r := setTargetSerials input st
    (r.1, r.2.1)
  | .reset, st => resetFoundSerials st
  | .stop, st => stopScanner st
  | .start, st => startScanner st

/-- Run a list of operations, accumulating the emitted events. -/
def runOps : List ScanOp → ScannerState → ScannerState × List ScanEvent
  | [], st => (st, [])
  | op :: rest, st =>
    let r := stepOp op st
    let r2 := runOps rest r.1
    (r2.1, r.2 ++ r2.2)

/-- A state the session can be in: reachable from the initial module state
by some sequence of operations. -/
def Reachable (st : ScannerState) : Prop :=
  ∃ ops : List ScanOp, (runOps ops initState).1 = st

/-- Run a sequence of processed detections (timestamp and barcode each),
accumulating events — the inner loop of `scanFrame` across frames, with no
render tick in between. -/
def runDetectionsEv : List (Nat × Barcode) → ScannerState → ScannerState × List ScanEvent
  | [], st => (st, [])
  | (now, bc) :: rest, st =>
    let r := processBarcode now bc st
    let r2 := runDetectionsEv rest r.1
    (r2.1, r.2 ++ r2.2)

/-- The found-notifications for a given serial within an event list. -/
def foundEventsFor (X : JStr) (evs : List ScanEvent) : List ScanEvent :=
  evs.filter fun e =>
    match e with
    | .found s _ => s = X
    | _ => false

/-- Does this barcode decode (validly) to the given string serial? -/
def decodesTo (bc : Barcode) (X : JStr) : Bool :=
  match decodeQRPayload bc.rawValue with
  | .ok r =>
    r.valid &&
      match r.serialNumber with
      | .jstr s => s = X
      | _ => false
  | .error _ => false

/-! ## Definitions taken from the specification's wording

`specDecodeStages` follows §4.1 of the spec to the letter (stage 2 rejects a
field that is *absent or empty*); it is the claimed behaviour, to be
compared against `decodeQRPayload` above, which was translated from the
source. -/

/-- The spec's `Result<serialNumber, DecodeError>`. -/
inductive SpecDecode where
  | fail (e : DecodeError)
  | succeed (s : JsValue)

/-- The field for a key, when the parsed payload is an object carrying it. -/
def specFieldValue (p : JsValue) (k : JStr) : Option JsValue :=
  match p with
  | .jobj _ =>
    match lookupLast (match p with | .jobj fs => fs | _ => []) k with
    | .jundef => none
    | v => some v
  | _ => none

/-- Spec stage 2 test: the field is absent, or it is the empty string. -/
def specAbsentOrEmpty (p : JsValue) (k : JStr) : Bool :=
  match specFieldValue p k with
  | none => true
  | some (.jstr []) => true
  | some _ => false

/-- The field value the later spec stages read (`undefined` when absent). -/
def specGetField (p : JsValue) (k : JStr) : JsValue :=
  (specFieldValue p k).getD (.jundef : JsValue)

/-- The four-stage decode exactly as the spec words it: parse failure →
NotStructured; a field absent or empty → MissingFields; `src` not the fixed
tag → UnknownSource; recomputed checksum disagreeing with `cs` →
ChecksumMismatch; otherwise success with `s`. -/
def specDecodeStages (raw : JStr) : SpecDecode :=
  match jsonParse raw with
  | none => .fail .notJson
  | some p =>
    if specAbsentOrEmpty p keyS ∨ specAbsentOrEmpty p keySrc ∨ specAbsentOrEmpty p keyCs then
      .fail .missingFields
    else if ¬ strictEqStr (specGetField p keySrc) srcTag then
      .fail .unknownSource
    else if ¬ strictEqStr (specGetField p keyCs)
        (calculateCRC32 (jsToString (specGetField p keyS) ++ jsToString (specGetField p keySrc))) then
      .fail .checksumMismatch
    else
      .succeed (specGetField p keyS)

/-- The staged decode with the two amendments the code forces: stage 2
rejects any JavaScript-falsy field value (absent, empty string, `0`,
`false`, `null`) rather than only absent-or-empty ones, and a payload
parsing to `null` makes the field read itself throw a `TypeError` (an
`undefined` payload would too, though `JSON.parse` cannot produce one). -/
def specDecodeStagesAmended (raw : JStr) : Except JsError SpecDecode :=
  match jsonParse raw with
  | none => .ok (.fail .notJson)
  | some p =>
    match p with
    | .jnull => .error .typeError
    | .jundef => .error .typeError
    | _ =>
      let s := specGetField p keyS
      let src := specGetField p keySrc
      let cs := specGetField p keyCs
      if ¬ truthy s ∨ ¬ truthy src ∨ ¬ truthy cs then .ok (.fail .missingFields)
      else if ¬ strictEqStr src srcTag then .ok (.fail .unknownSource)
      else if ¬ strictEqStr cs (calculateCRC32 (jsToString s ++ jsToString src)) then
        .ok (.fail .checksumMismatch)
      else .ok (.succeed s)

/-- The record `decodeQRPayload` builds for each spec-level outcome. -/
def specToResult : SpecDecode → DecodeResult
  | .fail e => ⟨false, .jnull, some e⟩
  | .succeed s => ⟨true, s, none⟩

/-! ## Concrete scenario fixtures used by counterexamples and witnesses -/

/-- `'{"not":"ours"}'`. -/
def rawForeign : JStr := [123, 34, 110, 111, 116, 34, 58, 34, 111, 117, 114, 115, 34, 125]

/-- `'not json'`. -/
def rawNotJson : JStr := [110, 111, 116, 32, 106, 115, 111, 110]

/-- `'null'`. -/
def rawNull : JStr := [110, 117, 108, 108]

/-- A payload whose `s` field is the number `0` and whose checksum is
correct for it: present, non-empty, yet JavaScript-falsy. -/
def rawZeroS : JStr :=
  jsonStringify (.jobj [(keyS, .jnum [48]), (keySrc, .jstr srcTag),
    (keyCs, .jstr (calculateCRC32 ([48] ++ srcTag)))])

/-- The serial `SN-1`. -/
def serialSN1 : JStr := [83, 78, 45, 49]

/-- A detection of `SN-1`'s own generated payload (no geometry). -/
def bcSN1 : Barcode := ⟨encodeQRPayload serialSN1, none, none⟩

/-- A scanning session searching for `SN-1` just before the single match:
scanning, border `searching`, nothing seen yet. -/
def stBeforeMatch : ScannerState := ⟨true, [serialSN1], [], [], .searching, 0⟩

/-- The session right after the single match at `T = 1000` (a base time
comfortably past the 300 ms debounce window measured from the initial
`lastFoundTime = 0`). -/
def stAfterMatch : ScannerState := (processBarcode 1000 bcSN1 stBeforeMatch).1

/-- Render ticks at one-millisecond cadence: `tickSeq B t st` runs
`drawOverlays` at times `B, B+1, …, B+t`. -/
def tickSeq (B : Nat) : Nat → ScannerState → ScannerState
  | 0, st => (drawOverlays B st).1
  | t + 1, st => (drawOverlays (B + (t + 1)) (tickSeq B t st)).1

/-- The serial `a`. -/
def serialA : JStr := [97]

/-- Operations: start with no targets, then set target `a` twice while
scanning. -/
def opsDoubleSet : List ScanOp :=
  [.start, .setTargets serialA, .setTargets serialA]

/-- Operations: start, search for `a`, detect it, stop. -/
def opsStopAfterFind : List ScanOp :=
  [.start, .setTargets serialA, .barcode 1000 ⟨encodeQRPayload serialA, none, none⟩, .stop]

/-! # Theorems -/

/-! ## Visible-code pruning (towards C7) -/

theorem drawPass_keep (now : Nat) (l : List (JsValue × VisEntry)) (p : JsValue × VisEntry)
    (hp : p ∈ l) (h : now - p.2.lastSeen ≤ QR_VISIBILITY_TIMEOUT) :
    p ∈ (drawPass now l).1 := by
  induction l with
  | nil => cases hp
  | cons q rest ih =>
    obtain ⟨k, e⟩ := q
    rcases List.mem_cons.mp hp with hq | hq
    · subst hq
      dsimp only at h
      simp only [drawPass]
      rw [if_neg (by omega)]
      exact List.mem_cons_self _ _
    · simp only [drawPass]
      split
      · exact ih hq
      · exact List.mem_cons_of_mem _ (ih hq)

theorem drawPass_sound (now : Nat) (l : List (JsValue × VisEntry)) (p : JsValue × VisEntry)
    (hp : p ∈ (drawPass now l).1) :
    p ∈ l ∧ now - p.2.lastSeen ≤ QR_VISIBILITY_TIMEOUT := by
  induction l with
  | nil => cases hp
  | cons q rest ih =>
    obtain ⟨k, e⟩ := q
    simp only [drawPass] at hp
    by_cases hexp : now - e.lastSeen > QR_VISIBILITY_TIMEOUT
    · rw [if_pos hexp] at hp
      exact ⟨List.mem_cons_of_mem _ (ih hp).1, (ih hp).2⟩
    · rw [if_neg hexp] at hp
      rcases List.mem_cons.mp hp with hq | hq
      · subst hq
        exact ⟨List.mem_cons_self _ _, by dsimp only; omega⟩
      · exact ⟨List.mem_cons_of_mem _ (ih hq).1, (ih hq).2⟩

theorem drawOverlays_visible (now : Nat) (st : ScannerState) :
    (drawOverlays now st).1.visibleQRs = (drawPass now st.visibleQRs).1 := by
  unfold drawOverlays
  split
  · split <;> rfl
  · rfl

theorem drawOverlays_found_serials (now : Nat) (st : ScannerState) :
    (drawOverlays now st).1.foundSerials = st.foundSerials := by
  unfold drawOverlays
  split
  · split <;> rfl
  · rfl

theorem drawOverlays_targets (now : Nat) (st : ScannerState) :
    (drawOverlays now st).1.targetSerials = st.targetSerials := by
  unfold drawOverlays
  split
  · split <;> rfl
  · rfl

theorem drawOverlays_scanning (now : Nat) (st : ScannerState) :
    (drawOverlays now st).1.isScanning = st.isScanning := by
  unfold drawOverlays
  split
  · split <;> rfl
  · rfl

/-- C7 — A VisibleCode entry upserted at time `T` and not refreshed is still
present when the renderer reads the tracker at `T + 499` and gone at
`T + 501`, and in general every entry surviving a render tick at time `now`
is at most `QR_VISIBILITY_TIMEOUT` old at that moment. -/
theorem c7_visible_entry_expiry :
    (∀ (st : ScannerState) (k : JsValue) (b : Option Bounds) (tgt : Bool) (T : Nat),
       (k, (⟨b, T, tgt⟩ : VisEntry)) ∈ st.visibleQRs →
       (k, (⟨b, T, tgt⟩ : VisEntry)) ∈ ((drawOverlays (T + 499) st).1).visibleQRs)
  ∧ (∀ (st : ScannerState) (k : JsValue) (b : Option Bounds) (tgt : Bool) (T : Nat),
       (k, (⟨b, T, tgt⟩ : VisEntry)) ∉ ((drawOverlays (T + 501) st).1).visibleQRs)
  ∧ (∀ (now : Nat) (st : ScannerState) (p : JsValue × VisEntry),
       p ∈ ((drawOverlays now st).1).visibleQRs →
       now - p.2.lastSeen ≤ QR_VISIBILITY_TIMEOUT) := by
  refine ⟨?_, ?_, ?_⟩
  · intro st k b tgt T hmem
    rw [drawOverlays_visible]
    exact drawPass_keep _ _ _ hmem (by simp only [QR_VISIBILITY_TIMEOUT]; omega)
  · intro st k b tgt T hmem
    rw [drawOverlays_visible] at hmem
    have h := (drawPass_sound _ _ _ hmem).2
    simp only [QR_VISIBILITY_TIMEOUT] at h
    omega
  · intro now st p hmem
    rw [drawOverlays_visible] at hmem
    exact (drawPass_sound _ _ _ hmem).2

theorem c7_witness :
    ((.jstr serialA, (⟨none, 0, true⟩ : VisEntry)) ∈
      ((drawOverlays (0 + 499)
        ⟨true, [serialA], [], [(.jstr serialA, ⟨none, 0, true⟩)], .searching, 0⟩).1).visibleQRs) :=
  c7_visible_entry_expiry.1 _ _ _ _ 0 (List.mem_singleton.mpr rfl)

/-! ## Border-state reporting (C8) -/

/-- C8 — Corrected.  The render tick does report the border state only on an
actual transition: an emitted report differs from the previously recorded
state and becomes the recorded state.  (The claim's universal form over all
operations is false — see the counterexample — because `setTargetSerials`,
`resetFoundSerials`, `stopScanner` and `startScanner` report
unconditionally.) -/
theorem c8_render_reports_only_transitions :
    ∀ (now : Nat) (st : ScannerState) (b : BorderState),
      .border b ∈ (drawOverlays now st).2 →
      b ≠ st.currentBorderState ∧ (drawOverlays now st).1.currentBorderState = b := by
  intro now st b
  unfold drawOverlays
  by_cases h1 : st.targetSerials ≠ []
  · rw [if_pos h1]
    by_cases h2 : borderAfter now st ≠ st.currentBorderState
    · rw [if_pos h2]
      intro hmem
      simp only [List.mem_singleton] at hmem
      cases hmem
      exact ⟨h2, rfl⟩
    · rw [if_neg h2]
      intro hmem
      simp at hmem
  · rw [if_neg h1]
    intro hmem
    simp at hmem

/-- C8 — counterexample to the claim as stated: starting with no targets and
then redefining the target list twice in a row while scanning fires the
border-state callback twice with the same state (`searching` then
`searching` again), so a report can equal the previously reported state. -/
theorem c8_counterexample_repeated_report :
    (runOps opsDoubleSet initState).2 = [.border .searching, .border .searching] := rfl

theorem c8_witness :
    BorderState.found ≠ BorderState.searching ∧
    (drawOverlays 0
      ⟨true, [serialA], [], [(.jstr serialA, ⟨none, 0, true⟩)], .searching, 0⟩).1.currentBorderState
      = .found :=
  c8_render_reports_only_transitions 0
    ⟨true, [serialA], [], [(.jstr serialA, ⟨none, 0, true⟩)], .searching, 0⟩
    .found (by decide)

/-! ## Clearing on stop and target redefinition (C4) -/

/-- C4 — Corrected.  `setTargetSerials` does synchronously clear all derived
state (visible map, found set, `lastFoundTime`); `stopScanner` clears the
visible map and reports `idle`, but deliberately leaves `foundSerials` (the
UI keeps showing the found list after a stop) and `lastFoundTime` untouched,
contrary to the claim. -/
theorem c4_clearing_amended :
    (∀ (input : JStr) (st : ScannerState),
       (setTargetSerials input st).1.foundSerials = [] ∧
       (setTargetSerials input st).1.visibleQRs = [] ∧
       (setTargetSerials input st).1.lastFoundTime = 0)
  ∧ (∀ st : ScannerState, st.isScanning = true →
       (stopScanner st).1.visibleQRs = [] ∧
       (stopScanner st).1.currentBorderState = .idle ∧
       (stopScanner st).1.foundSerials = st.foundSerials ∧
       (stopScanner st).1.lastFoundTime = st.lastFoundTime) := by
  constructor
  · intro input st
    unfold setTargetSerials
    split <;> exact ⟨rfl, rfl, rfl⟩
  · intro st hscan
    unfold stopScanner
    rw [if_neg (by simp [hscan])]
    exact ⟨rfl, rfl, rfl, rfl⟩

theorem c4_witness :
    (setTargetSerials serialA initState).1.foundSerials = [] ∧
    (stopScanner ⟨true, [serialA], [serialA], [], .found, 5⟩).1.foundSerials = [serialA] := by
  refine ⟨(c4_clearing_amended.1 serialA initState).1, ?_⟩
  exact (c4_clearing_amended.2 ⟨true, [serialA], [serialA], [], .found, 5⟩ rfl).2.2.1

/-- C4 — counterexample to the claim as stated: a full reachable run (start,
set target `a`, detect it, stop) ends stopped with `foundSerials` still
`["a"]` and `lastFoundTime` untouched — `stopScanner` did not clear them. -/
theorem c4_counterexample_stop_keeps_found :
    (runOps opsStopAfterFind initState).1.isScanning = false ∧
    (runOps opsStopAfterFind initState).1.foundSerials = [serialA] ∧
    (runOps opsStopAfterFind initState).1.foundSerials ≠ [] := by
  refine ⟨rfl, rfl, by decide⟩

/-! ## FoundSet bookkeeping (C5, C6) -/

theorem processBarcode_targets (now : Nat) (bc : Barcode) (st : ScannerState) :
    (processBarcode now bc st).1.targetSerials = st.targetSerials := by
  unfold processBarcode
  cases decodeQRPayload bc.rawValue with
  | error e => rfl
  | ok parsed =>
    dsimp only
    split
    · rfl
    · split
      · split <;> rfl
      · rfl

theorem processBarcode_found_char (now : Nat) (bc : Barcode) (st : ScannerState) :
    (processBarcode now bc st).1.foundSerials = st.foundSerials ∨
    ∃ s, (processBarcode now bc st).1.foundSerials = st.foundSerials ++ [s] ∧
         st.targetSerials.contains s = true ∧
         st.foundSerials.contains s = false := by
  unfold processBarcode
  cases decodeQRPayload bc.rawValue with
  | error e => exact Or.inl rfl
  | ok parsed =>
    dsimp only
    split
    · exact Or.inl rfl
    · split
      · next s hserial htgt =>
        split
        · exact Or.inl rfl
        · next hnf =>
          refine Or.inr ⟨s, rfl, ?_, by simpa using hnf⟩
          cases hs : parsed.serialNumber <;> rw [hs] at htgt <;> simp_all
      · exact Or.inl rfl

theorem processBarcode_found_mono (now : Nat) (bc : Barcode) (st : ScannerState) :
    st.foundSerials ⊆ (processBarcode now bc st).1.foundSerials := by
  rcases processBarcode_found_char now bc st with h | ⟨s, h, _, _⟩ <;> rw [h]
  · exact fun a ha => ha
  · exact fun a ha => List.mem_append_left _ ha

theorem setTargetSerials_clears (input : JStr) (st : ScannerState) :
    (setTargetSerials input st).1.foundSerials = [] ∧
    (setTargetSerials input st).1.visibleQRs = [] ∧
    (setTargetSerials input st).1.lastFoundTime = 0 := by
  unfold setTargetSerials
  split <;> exact ⟨rfl, rfl, rfl⟩

theorem resetFoundSerials_clears (st : ScannerState) :
    (resetFoundSerials st).1.foundSerials = [] ∧
    (resetFoundSerials st).1.visibleQRs = [] ∧
    (resetFoundSerials st).1.lastFoundTime = 0 := by
  unfold resetFoundSerials
  split <;> exact ⟨rfl, rfl, rfl⟩

theorem stopScanner_keeps_found (st : ScannerState) :
    (stopScanner st).1.foundSerials = st.foundSerials ∧
    (stopScanner st).1.targetSerials = st.targetSerials := by
  unfold stopScanner
  split <;> exact ⟨rfl, rfl⟩

theorem startScanner_keeps (st : ScannerState) :
    (startScanner st).1.foundSerials = st.foundSerials ∧
    (startScanner st).1.targetSerials = st.targetSerials := by
  unfold startScanner
  split
  · exact ⟨rfl, rfl⟩
  · split <;> exact ⟨rfl, rfl⟩

theorem stepOp_preserves_subset (op : ScanOp) (st : ScannerState)
    (h : st.foundSerials ⊆ st.targetSerials) :
    (stepOp op st).1.foundSerials ⊆ (stepOp op st).1.targetSerials := by
  cases op with
  | barcode now bc =>
    simp only [stepOp]
    rw [processBarcode_targets]
    rcases processBarcode_found_char now bc st with hc | ⟨s, hc, hct, _⟩ <;> rw [hc]
    · exact h
    · intro a ha
      rcases List.mem_append.mp ha with ha | ha
      · exact h ha
      · rw [List.mem_singleton.mp ha]
        exact List.elem_iff.mp hct
  | draw now =>
    simp only [stepOp]
    rw [drawOverlays_found_serials, drawOverlays_targets]
    exact h
  | setTargets input =>
    simp only [stepOp]
    rw [(setTargetSerials_clears input st).1]
    exact List.nil_subset _
  | reset =>
    simp only [stepOp]
    rw [(resetFoundSerials_clears st).1]
    exact List.nil_subset _
  | stop =>
    simp only [stepOp]
    rw [(stopScanner_keeps_found st).1, (stopScanner_keeps_found st).2]
    exact h
  | start =>
    simp only [stepOp]
    rw [(startScanner_keeps st).1, (startScanner_keeps st).2]
    exact h

theorem runOps_preserves_subset (ops : List ScanOp) (st : ScannerState)
    (h : st.foundSerials ⊆ st.targetSerials) :
    (runOps ops st).1.foundSerials ⊆ (runOps ops st).1.targetSerials := by
  induction ops generalizing st with
  | nil => exact h
  | cons op rest ih =>
    simp only [runOps]
    exact ih _ (stepOp_preserves_subset op st h)

theorem runDetections_found_mono (dets : List (Nat × Barcode)) (st : ScannerState) :
    st.foundSerials ⊆ (runDetectionsEv dets st).1.foundSerials := by
  induction dets generalizing st with
  | nil => exact fun a ha => ha
  | cons d rest ih =>
    obtain ⟨now, bc⟩ := d
    exact fun a ha => ih (processBarcode now bc st).1 (processBarcode_found_mono now bc st ha)

/-- C5 — FoundSet is a subset of TargetSet in every reachable state, and is
monotone (never loses an element) across any sequence of processed
detections within a session. -/
theorem c5_foundset_invariant :
    ∀ st : ScannerState, Reachable st →
      st.foundSerials ⊆ st.targetSerials ∧
      ∀ dets : List (Nat × Barcode),
        st.foundSerials ⊆ (runDetectionsEv dets st).1.foundSerials := by
  rintro st ⟨ops, hops⟩
  refine ⟨?_, fun dets => runDetections_found_mono dets st⟩
  rw [← hops]
  exact runOps_preserves_subset ops initState (List.nil_subset _)

theorem c5_witness :
    initState.foundSerials ⊆ initState.targetSerials ∧
    initState.foundSerials ⊆ (runDetectionsEv [] initState).1.foundSerials :=
  ⟨(c5_foundset_invariant initState ⟨[], rfl⟩).1,
   (c5_foundset_invariant initState ⟨[], rfl⟩).2 []⟩

theorem pb_fires (now : Nat) (bc : Barcode) (st : ScannerState) (X : JStr)
    (h1 : decodesTo bc X = true)
    (h2 : X ∈ st.targetSerials)
    (h3 : X ∉ st.foundSerials) :
    (processBarcode now bc st).2 = [.haptic, .found X (st.foundSerials ++ [X])] ∧
    (processBarcode now bc st).1.foundSerials = st.foundSerials ++ [X] := by
  unfold decodesTo at h1
  unfold processBarcode
  cases hdec : decodeQRPayload bc.rawValue with
  | error e => rw [hdec] at h1; cases h1
  | ok parsed =>
    rw [hdec] at h1
    dsimp only at h1 ⊢
    have hvalid : parsed.valid = true := by
      cases hv : parsed.valid
      · rw [hv] at h1; simp at h1
      · rfl
    cases hs : parsed.serialNumber with
    | jstr s =>
      rw [hs] at h1
      rw [hvalid] at h1
      simp only [Bool.true_and, decide_eq_true_eq] at h1
      subst h1
      have hct : st.targetSerials.contains s = true := List.elem_iff.mpr h2
      have hcf : st.foundSerials.contains s = false := by
        cases hc : st.foundSerials.contains s
        · rfl
        · exact absurd (List.elem_iff.mp hc) h3
      simp only [hvalid, hs, hct, Bool.not_true, if_false, hcf]
      exact ⟨rfl, rfl⟩
    | jnull => rw [hs] at h1; simp at h1
    | jundef => rw [hs] at h1; simp at h1
    | jbool b => rw [hs] at h1; simp at h1
    | jnum raw => rw [hs] at h1; simp at h1
    | jarr elems => rw [hs] at h1; simp at h1
    | jobj fields => rw [hs] at h1; simp at h1

theorem pb_no_fire (now : Nat) (bc : Barcode) (st : ScannerState) (X : JStr)
    (h : ¬(decodesTo bc X = true ∧ X ∈ st.targetSerials ∧ X ∉ st.foundSerials)) :
    foundEventsFor X (processBarcode now bc st).2 = [] ∧
    (X ∈ (processBarcode now bc st).1.foundSerials ↔ X ∈ st.foundSerials) := by
  unfold processBarcode
  cases hdec : decodeQRPayload bc.rawValue with
  | error e => exact ⟨rfl, Iff.rfl⟩
  | ok parsed =>
    dsimp only
    split
    · exact ⟨rfl, Iff.rfl⟩
    · next hvalid =>
      split
      · next s hserial htgt =>
        split
        · exact ⟨rfl, Iff.rfl⟩
        · next hnf =>
          have hval : parsed.valid = true := not_not.mp hvalid
          have htgt2 : st.targetSerials.contains s = true := by
            rw [hserial] at htgt; exact htgt
          have hsX : s ≠ X := by
            intro hsx
            subst hsx
            apply h
            refine ⟨?_, List.elem_iff.mp htgt2, fun hm => hnf (List.elem_iff.mpr hm)⟩
            unfold decodesTo
            rw [hdec]
            simp [hval, hserial]
          have hXs : ¬(X = s) := fun hh => hsX hh.symm
          constructor
          · simp [foundEventsFor, hsX]
          · dsimp only
            simp [List.mem_append, hXs]
      · exact ⟨rfl, Iff.rfl⟩

theorem pb_snap (now : Nat) (bc : Barcode) (st : ScannerState) (X : JStr) (snap : List JStr)
    (hmem : .found X snap ∈ (processBarcode now bc st).2) : X ∈ snap := by
  unfold processBarcode at hmem
  cases hdec : decodeQRPayload bc.rawValue with
  | error e => rw [hdec] at hmem; cases hmem
  | ok parsed =>
    rw [hdec] at hmem
    dsimp only at hmem
    split at hmem
    · cases hmem
    · split at hmem
      · split at hmem
        · cases hmem
        · simp only [List.mem_cons, List.mem_singleton] at hmem
          rcases hmem with h1 | h1 | h1
          · cases h1
          · obtain ⟨rfl, rfl⟩ := ScanEvent.found.inj h1.symm
            exact List.mem_append_right _ (List.mem_singleton.mpr rfl)
          · cases h1
      · cases hmem

theorem runDetections_snap (X : JStr) (dets : List (Nat × Barcode)) (st : ScannerState)
    (snap : List JStr) (hmem : .found X snap ∈ (runDetectionsEv dets st).2) : X ∈ snap := by
  induction dets generalizing st with
  | nil => cases hmem
  | cons d rest ih =>
    obtain ⟨now, bc⟩ := d
    simp only [runDetectionsEv, List.mem_append] at hmem
    rcases hmem with h1 | h1
    · exact pb_snap now bc st X snap h1
    · exact ih _ h1

theorem pb_snap_full (now : Nat) (bc : Barcode) (st : ScannerState) (X : JStr)
    (snap : List JStr) (hmem : .found X snap ∈ (processBarcode now bc st).2) :
    snap = st.foundSerials ++ [X] ∧ (processBarcode now bc st).1.foundSerials = snap := by
  by_cases hcond : decodesTo bc X = true ∧ X ∈ st.targetSerials ∧ X ∉ st.foundSerials
  · obtain ⟨h1, h2, h3⟩ := hcond
    have hfire := pb_fires now bc st X h1 h2 h3
    rw [hfire.1] at hmem
    simp only [List.mem_cons, List.mem_singleton] at hmem
    rcases hmem with h | h | h
    · cases h
    · obtain ⟨-, rfl⟩ := ScanEvent.found.inj h
      exact ⟨rfl, hfire.2⟩
    · cases h
  · exfalso
    have hno := pb_no_fire now bc st X hcond
    have hin : ScanEvent.found X snap ∈ foundEventsFor X (processBarcode now bc st).2 :=
      List.mem_filter.mpr ⟨hmem, by simp⟩
    rw [hno.1] at hin
    cases hin

theorem runDetections_snap_full (X : JStr) (dets : List (Nat × Barcode)) :
    ∀ (st : ScannerState) (snap : List JStr),
      .found X snap ∈ (runDetectionsEv dets st).2 →
      ∃ k < dets.length,
        snap = (runDetectionsEv (dets.take k) st).1.foundSerials ++ [X] ∧
        (runDetectionsEv (dets.take (k + 1)) st).1.foundSerials = snap := by
  induction dets with
  | nil => intro st snap h; cases h
  | cons d rest ih =>
    obtain ⟨now, bc⟩ := d
    intro st snap h
    simp only [runDetectionsEv, List.mem_append] at h
    rcases h with h1 | h1
    · obtain ⟨hsnap, hafter⟩ := pb_snap_full now bc st X snap h1
      exact ⟨0, by simp, by simpa [runDetectionsEv] using hsnap,
        by simpa [runDetectionsEv] using hafter⟩
    · obtain ⟨k, hk, hsnap, hafter⟩ := ih (processBarcode now bc st).1 snap h1
      exact ⟨k + 1, by simpa using Nat.succ_lt_succ hk,
        by simpa [runDetectionsEv, List.take] using hsnap,
        by simpa [runDetectionsEv, List.take] using hafter⟩

theorem runDetections_count (X : JStr) (dets : List (Nat × Barcode)) :
    ∀ st : ScannerState, X ∈ st.targetSerials →
      ((X ∉ st.foundSerials →
         (foundEventsFor X (runDetectionsEv dets st).2).length =
           (if dets.any (fun p => decodesTo p.2 X) then 1 else 0))
       ∧ (X ∈ st.foundSerials →
         (foundEventsFor X (runDetectionsEv dets st).2).length = 0)) := by
  induction dets with
  | nil =>
    intro st _
    exact ⟨fun _ => rfl, fun _ => rfl⟩
  | cons d rest ih =>
    obtain ⟨now, bc⟩ := d
    intro st hT
    have hT' : X ∈ (processBarcode now bc st).1.targetSerials := by
      rw [processBarcode_targets]; exact hT
    constructor
    · intro hF
      cases hd : decodesTo bc X with
      | true =>
        have hfire := pb_fires now bc st X hd hT hF
        have hFafter : X ∈ (processBarcode now bc st).1.foundSerials := by
          rw [hfire.2]
          exact List.mem_append_right _ (List.mem_singleton.mpr rfl)
        simp only [runDetectionsEv, foundEventsFor, List.filter_append]
        rw [hfire.1]
        have hrest := (ih (processBarcode now bc st).1 hT').2 hFafter
        simp only [foundEventsFor] at hrest
        simp [hrest, List.any_cons, hd, foundEventsFor]
      | false =>
        have hnof := pb_no_fire now bc st X (by rintro ⟨ha, _, _⟩; rw [hd] at ha; cases ha)
        have hFafter : X ∉ (processBarcode now bc st).1.foundSerials := by
          rw [hnof.2]; exact hF
        simp only [runDetectionsEv, foundEventsFor, List.filter_append]
        have h0 : (List.filter _ (processBarcode now bc st).2) = [] := hnof.1
        rw [h0]
        have hrest := (ih (processBarcode now bc st).1 hT').1 hFafter
        simp only [foundEventsFor] at hrest
        simp only [List.nil_append, hrest, List.any_cons]
        have hcond : (decodesTo bc X || rest.any fun p => decodesTo p.2 X)
            = (rest.any fun p => decodesTo p.2 X) := by rw [hd]; simp
        simp only [hcond]
    · intro hF
      have hnof := pb_no_fire now bc st X (by rintro ⟨_, _, h3⟩; exact h3 hF)
      have hFafter : X ∈ (processBarcode now bc st).1.foundSerials := by
        rw [hnof.2]; exact hF
      simp only [runDetectionsEv, foundEventsFor, List.filter_append]
      have h0 : (List.filter _ (processBarcode now bc st).2) = [] := hnof.1
      rw [h0]
      have hrest := (ih (processBarcode now bc st).1 hT').2 hFafter
      simp only [foundEventsFor] at hrest
      simp [hrest]

/-- C6 — Within a session (fixed targets, no reset), for a target serial not
yet found the found-notification fires exactly once over a sequence of
processed detections — exactly when some detection decodes to it — and every
notification for it carries that serial together with the full FoundSet at
firing time: the snapshot is the found set accumulated before the firing
detection extended with the serial, which is exactly the entire found set
immediately after that detection. -/
theorem c6_found_fires_exactly_once :
    ∀ (st : ScannerState) (X : JStr) (dets : List (Nat × Barcode)),
      X ∈ st.targetSerials → X ∉ st.foundSerials →
      ((foundEventsFor X (runDetectionsEv dets st).2).length
        = if dets.any (fun p => decodesTo p.2 X) then 1 else 0)
      ∧ ∀ snap, .found X snap ∈ (runDetectionsEv dets st).2 →
          X ∈ snap ∧
          ∃ k < dets.length,
            snap = (runDetectionsEv (dets.take k) st).1.foundSerials ++ [X] ∧
            (runDetectionsEv (dets.take (k + 1)) st).1.foundSerials = snap := by
  intro st X dets hT hF
  refine ⟨(runDetections_count X dets st hT).1 hF, fun snap h => ?_⟩
  obtain ⟨k, hk, hsnap, hafter⟩ := runDetections_snap_full X dets st snap h
  exact ⟨hsnap ▸ List.mem_append_right _ (List.mem_singleton.mpr rfl),
    k, hk, hsnap, hafter⟩

/-! ## Debounced border state over render ticks (C3) -/

theorem c3_drawA (now L : Nat) (h : now - 1000 ≤ 500) :
    (drawOverlays now ⟨true, [serialSN1], [serialSN1],
        [(.jstr serialSN1, ⟨none, 1000, true⟩)], .found, L⟩).1
      = ⟨true, [serialSN1], [serialSN1],
        [(.jstr serialSN1, ⟨none, 1000, true⟩)], .found, now⟩ := by
  have hc : ¬(now - (1000 : Nat) > QR_VISIBILITY_TIMEOUT) := by
    simp only [QR_VISIBILITY_TIMEOUT]; omega
  simp [drawOverlays, borderAfter, lastFoundAfter, hasVisibleTarget, drawPass, hc]

theorem c3_drawAtoB (now : Nat) (h1 : now - 1000 > 500) (h2 : now - 1500 < 300) :
    (drawOverlays now ⟨true, [serialSN1], [serialSN1],
        [(.jstr serialSN1, ⟨none, 1000, true⟩)], .found, 1500⟩).1
      = ⟨true, [serialSN1], [serialSN1], [], .found, 1500⟩ := by
  have hc : now - (1000 : Nat) > QR_VISIBILITY_TIMEOUT := by
    simp only [QR_VISIBILITY_TIMEOUT]; omega
  have hd : now - (1500 : Nat) < BORDER_DEBOUNCE_MS := by
    simp only [BORDER_DEBOUNCE_MS]; omega
  simp [drawOverlays, borderAfter, lastFoundAfter, hasVisibleTarget, drawPass, hc, hd]

theorem c3_drawB (now : Nat) (h : now - 1500 < 300) :
    (drawOverlays now ⟨true, [serialSN1], [serialSN1], [], .found, 1500⟩).1
      = ⟨true, [serialSN1], [serialSN1], [], .found, 1500⟩ := by
  have hd : now - (1500 : Nat) < BORDER_DEBOUNCE_MS := by
    simp only [BORDER_DEBOUNCE_MS]; omega
  simp [drawOverlays, borderAfter, lastFoundAfter, hasVisibleTarget, drawPass, hd]

theorem c3_drawBtoC (now : Nat) (h : ¬(now - 1500 < 300)) :
    (drawOverlays now ⟨true, [serialSN1], [serialSN1], [], .found, 1500⟩).1
      = ⟨true, [serialSN1], [serialSN1], [], .searching, 1500⟩ := by
  have hd : ¬(now - (1500 : Nat) < BORDER_DEBOUNCE_MS) := by
    simp only [BORDER_DEBOUNCE_MS]; omega
  simp [drawOverlays, borderAfter, lastFoundAfter, hasVisibleTarget, drawPass, hd]

theorem c3_drawCtoC (now : Nat) (h : ¬(now - 1500 < 300)) :
    (drawOverlays now ⟨true, [serialSN1], [serialSN1], [], .searching, 1500⟩).1
      = ⟨true, [serialSN1], [serialSN1], [], .searching, 1500⟩ := by
  have hd : ¬(now - (1500 : Nat) < BORDER_DEBOUNCE_MS) := by
    simp only [BORDER_DEBOUNCE_MS]; omega
  simp [drawOverlays, borderAfter, lastFoundAfter, hasVisibleTarget, drawPass, hd]

theorem c3_state_characterization (t : Nat) :
    tickSeq 1000 t stAfterMatch =
      if t ≤ 500 then
        ⟨true, [serialSN1], [serialSN1],
          [(.jstr serialSN1, ⟨none, 1000, true⟩)], .found, 1000 + t⟩
      else if t ≤ 799 then
        ⟨true, [serialSN1], [serialSN1], [], .found, 1500⟩
      else
        ⟨true, [serialSN1], [serialSN1], [], .searching, 1500⟩ := by
  induction t with
  | zero =>
    rw [if_pos (by omega)]
    rfl
  | succ t ih =>
    simp only [tickSeq]
    rw [ih]
    by_cases hA : t + 1 ≤ 500
    · rw [if_pos (show t ≤ 500 by omega), if_pos hA]
      exact c3_drawA _ _ (by omega)
    · by_cases hB : t + 1 ≤ 799
      · by_cases hA2 : t ≤ 500
        · rw [if_pos hA2, if_neg hA, if_pos hB]
          have ht : t = 500 := by omega
          subst ht
          exact c3_drawAtoB _ (by omega) (by omega)
        · rw [if_neg hA2, if_pos (show t ≤ 799 by omega), if_neg hA, if_pos hB]
          exact c3_drawB _ (by omega)
      · by_cases hC : t ≤ 799
        · rw [if_neg (show ¬ t ≤ 500 by omega), if_pos hC, if_neg hA, if_neg hB]
          exact c3_drawBtoC _ (by omega)
        · rw [if_neg (show ¬ t ≤ 500 by omega), if_neg hC, if_neg hA, if_neg hB]
          exact c3_drawCtoC _ (by omega)

/-- C3 — Corrected.  With the target set `{SN-1}`, a single match at
`T = 1000` and render ticks every millisecond from `T` on, the border
state is `found` at every tick through `T + 799` (the entry stays visible
for the 500 ms visibility window and refreshes `lastFoundTime` at each tick,
then the 300 ms debounce holds) and `searching` from `T + 800` onward — not
`searching` from `T + 300` as the claim states. -/
theorem c3_debounce_amended :
    ∀ t : Nat,
      (tickSeq 1000 t stAfterMatch).currentBorderState
        = if t ≤ 799 then .found else .searching := by
  intro t
  rw [c3_state_characterization t]
  by_cases h1 : t ≤ 500
  · rw [if_pos h1, if_pos (by omega)]
  · by_cases h2 : t ≤ 799
    · rw [if_neg h1, if_pos h2, if_pos h2]
    · rw [if_neg h1, if_neg h2, if_neg h2]

/-- C3 — counterexample to the claim as stated: at the render tick sampling
`T + 300` the border state is still `found` (the matched code is still
within its 500 ms visibility window), whereas the claim requires
`searching` from `T + 300` onward. -/
theorem c3_counterexample_found_at_300 :
    (tickSeq 1000 300 stAfterMatch).currentBorderState = .found := by
  rw [c3_state_characterization 300, if_pos (by omega)]

theorem c6_witness :
    ((foundEventsFor serialSN1 (runDetectionsEv [(1000, bcSN1)] stBeforeMatch).2).length
      = if List.any [(1000, bcSN1)] (fun p => decodesTo p.2 serialSN1) then 1 else 0)
    ∧ ∀ snap, .found serialSN1 snap ∈ (runDetectionsEv [(1000, bcSN1)] stBeforeMatch).2 →
        serialSN1 ∈ snap ∧
        ∃ k < ([(1000, bcSN1)] : List (Nat × Barcode)).length,
          snap = (runDetectionsEv (([(1000, bcSN1)] : List (Nat × Barcode)).take k)
              stBeforeMatch).1.foundSerials ++ [serialSN1] ∧
          (runDetectionsEv (([(1000, bcSN1)] : List (Nat × Barcode)).take (k + 1))
              stBeforeMatch).1.foundSerials = snap :=
  c6_found_fires_exactly_once stBeforeMatch serialSN1 [(1000, bcSN1)]
    (by simp [stBeforeMatch]) (by simp [stBeforeMatch])

example : jsonParse [110, 117, 108, 108] = some .jnull := rfl
example : jsonParse [116, 114, 117, 101] = some (.jbool true) := rfl
example : jsonParse [52, 50] = some (.jnum [52, 50]) := rfl
example : jsonParse [91, 93] = some (.jarr []) := rfl
example :
    jsonParse [123, 34, 97, 34, 58, 49, 125] = some (.jobj [([97], .jnum [49])]) := rfl
example : jsonParse [110, 111, 116, 32, 106, 115, 111, 110] = none := rfl
example : truthy (.jstr [97]) = true := by decide
example : propAccess .jnull [115] = .error .typeError := rfl

/-! ## Totality of the decoder (C10) and the staged decode (C2) -/

theorem parseV_val_ne_undef (fuel : Nat) (input : JStr) (r : JsValue) (rest : JStr)
    (h : parseV fuel .val input = some (.v r, rest)) : r ≠ .jundef := by
  match fuel with
  | 0 => exact absurd h (by simp [parseV])
  | fuel + 1 =>
    simp only [parseV] at h
    rcases hsw : skipWs input with _ | ⟨c, rest2⟩ <;> rw [hsw] at h
    · cases h
    · repeat' split at h
      all_goals simp_all
      all_goals (obtain ⟨h1, h2⟩ := h; subst h1; simp)

theorem jsonParse_ne_undef (raw : JStr) : jsonParse raw ≠ some .jundef := by
  intro h
  unfold jsonParse at h
  split at h
  · next v rest hp =>
    split at h
    · exact parseV_val_ne_undef _ _ _ _ hp (by injection h)
    · cases h
  · cases h

/-- C10 — Corrected.  `decodeQRPayload` returns a result record for every
input *except* the inputs whose JSON text parses to `null`: there the field
read `payload.s` itself throws a `TypeError` instead of producing the
`MissingFields` record, so the function is not total as claimed.  (Inputs
parsing to booleans, numbers, strings or arrays are fine: property access on
them yields `undefined` and the record is returned.) -/
theorem c10_decode_total_amended :
    ∀ raw : JStr, (∃ e, decodeQRPayload raw = .error e) ↔ jsonParse raw = some .jnull := by
  intro raw
  unfold decodeQRPayload
  cases hp : jsonParse raw with
  | none =>
    constructor
    · rintro ⟨e, he⟩
      cases he
    · intro hh
      cases hh
  | some p =>
    cases p with
    | jnull => exact iff_of_true ⟨.typeError, rfl⟩ rfl
    | jundef => exact absurd hp (jsonParse_ne_undef raw)
    | jbool b =>
      refine iff_of_false ?_ (by simp)
      rintro ⟨e, he⟩
      dsimp only [propAccess] at he
      repeat' split at he
      all_goals cases he
    | jnum raw2 =>
      refine iff_of_false ?_ (by simp)
      rintro ⟨e, he⟩
      dsimp only [propAccess] at he
      repeat' split at he
      all_goals cases he
    | jstr s =>
      refine iff_of_false ?_ (by simp)
      rintro ⟨e, he⟩
      dsimp only [propAccess] at he
      repeat' split at he
      all_goals cases he
    | jarr elems =>
      refine iff_of_false ?_ (by simp)
      rintro ⟨e, he⟩
      dsimp only [propAccess] at he
      repeat' split at he
      all_goals cases he
    | jobj fields =>
      refine iff_of_false ?_ (by simp)
      rintro ⟨e, he⟩
      dsimp only [propAccess] at he
      repeat' split at he
      all_goals cases he

/-- C10 — counterexample to the claim as stated: on the input `'null'` the
decoder throws a `TypeError` (reading `.s` of `null`) rather than returning
a `{valid, serialNumber, error}` record. -/
theorem c10_counterexample_null_throws :
    decodeQRPayload rawNull = .error .typeError := rfl

/-- C2 — Corrected.  The decoder agrees everywhere with the four-stage
cascade *amended* so that stage 2 rejects JavaScript-falsy field values
(not only absent-or-empty ones) and a payload parsing to `null` throws on
the field read; and the claim's two concrete examples hold:
`'{"not":"ours"}'` fails with MissingFields and `'not json'` fails with
NotStructured. -/
theorem c2_staged_decode_amended :
    (∀ raw : JStr, decodeQRPayload raw = (specDecodeStagesAmended raw).map specToResult)
    ∧ decodeQRPayload rawForeign = .ok ⟨false, .jnull, some .missingFields⟩
    ∧ decodeQRPayload rawNotJson = .ok ⟨false, .jnull, some .notJson⟩ := by
  refine ⟨?_, rfl, rfl⟩
  intro raw
  unfold decodeQRPayload specDecodeStagesAmended
  cases hp : jsonParse raw with
  | none => rfl
  | some p =>
    cases p with
    | jnull => rfl
    | jundef => rfl
    | jbool b => rfl
    | jnum raw2 => rfl
    | jstr s => rfl
    | jarr elems => rfl
    | jobj fields =>
      have hg : ∀ k, specGetField (.jobj fields) k = lookupLast fields k := by
        intro k
        unfold specGetField specFieldValue
        cases lookupLast fields k <;> rfl
      dsimp only [propAccess]
      rw [hg, hg, hg]
      by_cases h1 : ¬ truthy (lookupLast fields keyS) = true ∨
          ¬ truthy (lookupLast fields keySrc) = true ∨
          ¬ truthy (lookupLast fields keyCs) = true
      · rw [if_pos h1, if_pos h1]
        rfl
      · rw [if_neg h1, if_neg h1]
        by_cases h2 : ¬ strictEqStr (lookupLast fields keySrc) srcTag = true
        · rw [if_pos h2, if_pos h2]
          rfl
        · rw [if_neg h2, if_neg h2]
          by_cases h3 : ¬ strictEqStr (lookupLast fields keyCs)
              (calculateCRC32 (jsToString (lookupLast fields keyS) ++
                jsToString (lookupLast fields keySrc))) = true
          · rw [if_pos h3, if_pos h3]
            rfl
          · rw [if_neg h3, if_neg h3]
            rfl

/-- C2 — counterexample to the claim as stated: the payload
`{"s":0,"src":"lablup-inventory","cs":<crc32 of "0lablup-inventory">}` has
all three fields present and non-empty, the right source and a matching
checksum, so the claim's staged reading succeeds with `0` — but the code
returns MissingFields, because `!payload.s` tests JavaScript falsiness and
the number `0` is falsy. -/
theorem c2_counterexample_falsy_zero :
    specDecodeStages rawZeroS = .succeed (.jnum [48]) ∧
    decodeQRPayload rawZeroS = .ok ⟨false, .jnull, some .missingFields⟩ :=
  ⟨rfl, rfl⟩

/-! ## Codec round-trip (C1) -/

theorem hexVal_hexDigitChar (d : Nat) (h : d < 16) : hexVal (hexDigitChar d) = some d := by
  unfold hexVal hexDigitChar
  by_cases h10 : d < 10
  · rw [if_pos h10, if_pos (by omega)]
    simp only [Option.some.injEq]
    omega
  · rw [if_neg h10, if_neg (by omega), if_pos (by omega)]
    simp only [Option.some.injEq]
    omega

theorem parse_u_escape (c : Nat) (hc : c < 65536) (tail : JStr) :
    parseStringBody (92 :: 117 :: (hex4 c ++ tail)) = consUnit c (parseStringBody tail) := by
  have e1 : hexVal (hexDigitChar (c / 4096 % 16)) = some (c / 4096 % 16) :=
    hexVal_hexDigitChar _ (by omega)
  have e2 : hexVal (hexDigitChar (c / 256 % 16)) = some (c / 256 % 16) :=
    hexVal_hexDigitChar _ (by omega)
  have e3 : hexVal (hexDigitChar (c / 16 % 16)) = some (c / 16 % 16) :=
    hexVal_hexDigitChar _ (by omega)
  have e4 : hexVal (hexDigitChar (c % 16)) = some (c % 16) :=
    hexVal_hexDigitChar _ (by omega)
  have hval : 4096 * (c / 4096 % 16) + 256 * (c / 256 % 16) + 16 * (c / 16 % 16) + c % 16 = c := by
    omega
  rw [parseStringBody.eq_def]
  simp only [hex4, List.cons_append, List.nil_append]
  simp [e1, e2, e3, e4, hval]

theorem parse_literal_unit (c : Nat) (h34 : ¬ c = 34) (h92 : ¬ c = 92) (hge : ¬ c < 32)
    (tail : JStr) :
    parseStringBody (c :: tail) = consUnit c (parseStringBody tail) := by
  rw [parseStringBody.eq_def]
  dsimp only
  rw [if_neg h34, if_neg h92, if_neg hge]

theorem parseStringBody_escapeBody (s : JStr) : ∀ rest : JStr,
    parseStringBody (escapeBody s ++ 34 :: rest) = some (s, rest) := by
  induction s using escapeBody.induct with
  | case1 =>
    intro r
    rw [escapeBody.eq_def]
    dsimp only
    rw [List.nil_append, parseStringBody.eq_def]
    dsimp only
    rw [if_pos rfl]
  | case2 rest ih =>
    intro r
    rw [escapeBody.eq_def]
    dsimp only
    rw [if_pos rfl]
    rw [List.cons_append, List.cons_append, parseStringBody.eq_def]
    dsimp only
    simp [consUnit, ih r]
  | case3 rest _ ih =>
    intro r
    rw [escapeBody.eq_def]
    dsimp only
    rw [if_neg (by omega), if_pos rfl]
    rw [List.cons_append, List.cons_append, parseStringBody.eq_def]
    dsimp only
    simp [consUnit, ih r]
  | case4 rest _ _ ih =>
    intro r
    rw [escapeBody.eq_def]
    dsimp only
    rw [if_neg (by omega), if_neg (by omega), if_pos rfl]
    rw [List.cons_append, List.cons_append, parseStringBody.eq_def]
    dsimp only
    simp [consUnit, ih r]
  | case5 rest _ _ _ ih =>
    intro r
    rw [escapeBody.eq_def]
    dsimp only
    rw [if_neg (by omega), if_neg (by omega), if_neg (by omega), if_pos rfl]
    rw [List.cons_append, List.cons_append, parseStringBody.eq_def]
    dsimp only
    simp [consUnit, ih r]
  | case6 rest _ _ _ _ ih =>
    intro r
    rw [escapeBody.eq_def]
    dsimp only
    rw [if_neg (by omega), if_neg (by omega), if_neg (by omega), if_neg (by omega), if_pos rfl]
    rw [List.cons_append, List.cons_append, parseStringBody.eq_def]
    dsimp only
    simp [consUnit, ih r]
  | case7 rest _ _ _ _ _ ih =>
    intro r
    rw [escapeBody.eq_def]
    dsimp only
    rw [if_neg (by omega), if_neg (by omega), if_neg (by omega), if_neg (by omega),
        if_neg (by omega), if_pos rfl]
    rw [List.cons_append, List.cons_append, parseStringBody.eq_def]
    dsimp only
    simp [consUnit, ih r]
  | case8 rest _ _ _ _ _ _ ih =>
    intro r
    rw [escapeBody.eq_def]
    dsimp only
    rw [if_neg (by omega), if_neg (by omega), if_neg (by omega), if_neg (by omega),
        if_neg (by omega), if_neg (by omega), if_pos rfl]
    rw [List.cons_append, List.cons_append, parseStringBody.eq_def]
    dsimp only
    simp [consUnit, ih r]
  | case9 c rest h34 h92 h8 h9 hA hC hD hlt ih =>
    intro r
    rw [escapeBody.eq_def]
    dsimp only
    rw [if_neg h34, if_neg h92, if_neg h8, if_neg h9, if_neg hA, if_neg hC, if_neg hD,
        if_pos hlt]
    rw [List.cons_append, List.cons_append, List.append_assoc]
    rw [parse_u_escape c (by omega), ih r]
    rfl
  | case10 c h34 h92 h8 h9 hA hC hD hnlt hhi c2 rest2 hlo ih =>
    intro r
    rw [escapeBody.eq_def]
    dsimp only
    rw [if_neg h34, if_neg h92, if_neg h8, if_neg h9, if_neg hA, if_neg hC, if_neg hD,
        if_neg hnlt, if_pos hhi, if_pos hlo]
    rw [List.cons_append, List.cons_append]
    rw [parse_literal_unit c h34 h92 hnlt]
    rw [parse_literal_unit c2 (by omega) (by omega) (by omega)]
    rw [ih r]
    rfl
  | case11 c h34 h92 h8 h9 hA hC hD hnlt hhi c2 rest2 hnlo ih =>
    intro r
    rw [escapeBody.eq_def]
    dsimp only
    rw [if_neg h34, if_neg h92, if_neg h8, if_neg h9, if_neg hA, if_neg hC, if_neg hD,
        if_neg hnlt, if_pos hhi, if_neg hnlo]
    rw [List.cons_append, List.cons_append, List.append_assoc]
    rw [parse_u_escape c (by omega), ih r]
    rfl
  | case12 c h34 h92 h8 h9 hA hC hD hnlt hhi =>
    intro r
    rw [escapeBody.eq_def]
    dsimp only
    rw [if_neg h34, if_neg h92, if_neg h8, if_neg h9, if_neg hA, if_neg hC, if_neg hD,
        if_neg hnlt, if_pos hhi]
    rw [List.cons_append, List.cons_append]
    rw [parse_u_escape c (by omega)]
    rw [parseStringBody.eq_def]
    dsimp only
    rw [if_pos rfl]
    rfl
  | case13 c rest h34 h92 h8 h9 hA hC hD hnlt hnhi hlo ih =>
    intro r
    rw [escapeBody.eq_def]
    dsimp only
    rw [if_neg h34, if_neg h92, if_neg h8, if_neg h9, if_neg hA, if_neg hC, if_neg hD,
        if_neg hnlt, if_neg hnhi, if_pos hlo]
    rw [List.cons_append, List.cons_append, List.append_assoc]
    rw [parse_u_escape c (by omega), ih r]
    rfl
  | case14 c rest h34 h92 h8 h9 hA hC hD hnlt hnhi hnlo ih =>
    intro r
    rw [escapeBody.eq_def]
    dsimp only
    rw [if_neg h34, if_neg h92, if_neg h8, if_neg h9, if_neg hA, if_neg hC, if_neg hD,
        if_neg hnlt, if_neg hnhi, if_neg hnlo]
    rw [List.cons_append]
    rw [parse_literal_unit c h34 h92 hnlt]
    rw [ih r]
    rfl

theorem skipWs_cons (c : Nat) (l : JStr) (h : ¬(c = 32 ∨ c = 9 ∨ c = 10 ∨ c = 13)) :
    skipWs (c :: l) = c :: l := by
  rw [skipWs.eq_def]
  dsimp only
  rw [if_neg h]

theorem parseV_val_string (g : Nat) (v : JStr) (rest : JStr) :
    parseV (g + 1) .val (34 :: (escapeBody v ++ 34 :: rest)) = some (.v (.jstr v), rest) := by
  rw [parseV.eq_def]
  dsimp only
  rw [skipWs_cons 34 _ (by omega)]
  dsimp only
  rw [if_neg (by omega), if_neg (by omega), if_neg (by omega), if_pos rfl]
  rw [parseStringBody_escapeBody v rest]

theorem parseV_members_last (g : Nat) (k v : JStr) (rest : JStr) :
    parseV (g + 2) .members
        ((34 :: (escapeBody k ++ 34 :: (58 :: (34 :: (escapeBody v ++ 34 :: (125 :: rest)))))))
      = some (.fs [(k, .jstr v)], rest) := by
  rw [parseV.eq_def]
  dsimp only
  rw [skipWs_cons 34 _ (by omega)]
  dsimp only
  rw [parseStringBody_escapeBody k]
  dsimp only
  rw [skipWs_cons 58 _ (by omega)]
  dsimp only
  rw [parseV_val_string g v]
  dsimp only
  rw [skipWs_cons 125 _ (by omega)]

theorem parseV_members_cons (g : Nat) (k v : JStr) (M : JStr) (fields : List (JStr × JsValue))
    (rest : JStr) (hM : parseV (g + 1) .members M = some (.fs fields, rest)) :
    parseV (g + 2) .members
        ((34 :: (escapeBody k ++ 34 :: (58 :: (34 :: (escapeBody v ++ 34 :: (44 :: M)))))))
      = some (.fs ((k, .jstr v) :: fields), rest) := by
  rw [parseV.eq_def]
  dsimp only
  rw [skipWs_cons 34 _ (by omega)]
  dsimp only
  rw [parseStringBody_escapeBody k]
  dsimp only
  rw [skipWs_cons 58 _ (by omega)]
  dsimp only
  rw [parseV_val_string g v]
  dsimp only
  rw [skipWs_cons 44 _ (by omega)]
  dsimp only
  rw [hM]

theorem parseV_val_object (F : Nat) (M : JStr) (fields : List (JStr × JsValue)) (rest : JStr)
    (hM : parseV F .members (34 :: M) = some (.fs fields, rest)) :
    parseV (F + 1) .val (123 :: 34 :: M) = some (.v (.jobj fields), rest) := by
  rw [parseV.eq_def]
  dsimp only
  rw [skipWs_cons 123 _ (by omega)]
  dsimp only
  rw [if_neg (by omega), if_neg (by omega), if_neg (by omega), if_neg (by omega), if_pos rfl]
  rw [skipWs_cons 34 _ (by omega)]
  dsimp only
  rw [hM]

theorem jsonStringify_mkPayload (s src cs : JStr) :
    jsonStringify (mkPayload s src cs) ++ ([] : JStr)
      = 123 :: 34 :: (escapeBody keyS ++ 34 :: (58 :: (34 :: (escapeBody s ++ 34 ::
          (44 :: (34 :: (escapeBody keySrc ++ 34 :: (58 :: (34 :: (escapeBody src ++ 34 ::
          (44 :: (34 :: (escapeBody keyCs ++ 34 :: (58 :: (34 :: (escapeBody cs ++ 34 ::
          (125 :: []))))))))))))))))) := by
  simp [mkPayload, jsonStringify, jsonStringifyFields, quoteJSONString]

theorem parseV_payload (f : Nat) (s src cs : JStr) :
    parseV (f + 5) .val (jsonStringify (mkPayload s src cs))
      = some (.v (mkPayload s src cs), []) := by
  have hM3 := parseV_members_last f keyCs cs []
  have hM2 := parseV_members_cons (f + 1) keySrc src _ _ _ hM3
  have hM1 := parseV_members_cons (f + 2) keyS s _ _ _ hM2
  have hO := parseV_val_object (f + 4) _ _ _ hM1
  calc parseV (f + 5) .val (jsonStringify (mkPayload s src cs))
      = parseV (f + 5) .val (jsonStringify (mkPayload s src cs) ++ []) := by
        rw [List.append_nil]
    _ = some (.v (mkPayload s src cs), []) := by
        rw [jsonStringify_mkPayload]
        exact hO

theorem jsonParse_stringify_payload (s src cs : JStr) :
    jsonParse (jsonStringify (mkPayload s src cs)) = some (mkPayload s src cs) := by
  have hlen : 4 ≤ (jsonStringify (mkPayload s src cs)).length := by
    have h := jsonStringify_mkPayload s src cs
    rw [List.append_nil] at h
    rw [h]
    simp
    omega
  unfold jsonParse
  have hg : (jsonStringify (mkPayload s src cs)).length + 1
      = ((jsonStringify (mkPayload s src cs)).length - 4) + 5 := by omega
  rw [hg, parseV_payload]
  rfl

theorem lookupLast_payload_s (s src cs : JStr) :
    lookupLast [(keyS, .jstr s), (keySrc, .jstr src), (keyCs, .jstr cs)] keyS = .jstr s := by
  simp [lookupLast, keyS, keySrc, keyCs]

theorem lookupLast_payload_src (s src cs : JStr) :
    lookupLast [(keyS, .jstr s), (keySrc, .jstr src), (keyCs, .jstr cs)] keySrc = .jstr src := by
  simp [lookupLast, keyS, keySrc, keyCs]

theorem lookupLast_payload_cs (s src cs : JStr) :
    lookupLast [(keyS, .jstr s), (keySrc, .jstr src), (keyCs, .jstr cs)] keyCs = .jstr cs := by
  simp [lookupLast, keyS, keySrc, keyCs]

theorem truthy_jstr_of_ne (l : JStr) (h : l ≠ []) : truthy (.jstr l) = true := by
  cases l with
  | nil => exact absurd rfl h
  | cons a t => rfl

theorem toHexAux_ne_nil (f n : Nat) : toHexAux (f + 1) n ≠ [] := by
  rw [toHexAux]
  split
  · simp
  · simp

theorem calculateCRC32_ne_nil (l : JStr) : calculateCRC32 l ≠ [] := by
  unfold calculateCRC32 padStart8 toHexString
  intro h
  exact toHexAux_ne_nil 7 _ (List.append_eq_nil.mp h).2

theorem decode_stringify_payload (s src cs : JStr) (hs : s ≠ []) (hsrc : src ≠ [])
    (hcs : cs ≠ []) :
    decodeQRPayload (jsonStringify (mkPayload s src cs)) =
      (if ¬ src = srcTag then .ok ⟨false, .jnull, some .unknownSource⟩
       else if ¬ cs = calculateCRC32 (s ++ src) then .ok ⟨false, .jnull, some .checksumMismatch⟩
       else .ok ⟨true, .jstr s, none⟩) := by
  unfold decodeQRPayload
  rw [jsonParse_stringify_payload]
  dsimp only [mkPayload, propAccess]
  rw [lookupLast_payload_s, lookupLast_payload_src, lookupLast_payload_cs]
  rw [if_neg (by simp [truthy_jstr_of_ne _ hs, truthy_jstr_of_ne _ hsrc, truthy_jstr_of_ne _ hcs])]
  by_cases h2 : src = srcTag
  · subst h2
    by_cases h3 : cs = calculateCRC32 (s ++ srcTag)
    · subst h3
      simp [strictEqStr, jsToString]
    · simp [strictEqStr, jsToString, h3]
  · simp [strictEqStr, h2]

/-- C1 — Codec round-trip: for every non-empty serial string (a list of
UTF-16 code units), decoding the encoded payload succeeds and yields exactly
that serial. -/
theorem c1_codec_roundtrip (S : JStr) (h1 : S ≠ []) (hunits : ∀ u ∈ S, u < 65536) :
    decodeQRPayload (encodeQRPayload S) = .ok ⟨true, .jstr S, none⟩ := by
  unfold encodeQRPayload
  rw [decode_stringify_payload S srcTag (calculateCRC32 (S ++ srcTag)) h1 (by decide)
      (calculateCRC32_ne_nil _)]
  rw [if_neg (by simp), if_neg (by simp)]

theorem c1_witness :
    (([65] : JStr) ≠ [] ∧ ∀ u ∈ ([65] : JStr), u < 65536) ∧
    decodeQRPayload (encodeQRPayload [65]) = .ok ⟨true, .jstr [65], none⟩ :=
  ⟨⟨by decide, by decide⟩, c1_codec_roundtrip [65] (by decide) (by decide)⟩

/-! ## CRC32 single-byte sensitivity (towards C9) -/

theorem xor_left_cancel_nat (a b c : Nat) (h : a ^^^ b = a ^^^ c) : b = c := by
  have h2 := congrArg (fun x => a ^^^ x) h
  simpa [← Nat.xor_assoc, Nat.xor_self, Nat.zero_xor] using h2

theorem xor_right_cancel_nat (a b c : Nat) (h : b ^^^ a = c ^^^ a) : b = c := by
  rw [Nat.xor_comm b a, Nat.xor_comm c a] at h
  exact xor_left_cancel_nat a b c h

theorem xor_poly_high (a : Nat) (ha : a < 2 ^ 31) : 2 ^ 31 ≤ 0xEDB88320 ^^^ a := by
  by_contra hlt
  push_neg at hlt
  have h31 : (0xEDB88320 ^^^ a).testBit 31 = false := Nat.testBit_lt_two_pow hlt
  rw [Nat.testBit_xor, Nat.testBit_lt_two_pow ha] at h31
  simp only [Bool.xor_false] at h31
  exact absurd h31 (by decide)

theorem crc32Round_lt (c : Nat) (h : c < 2 ^ 32) : crc32Round c < 2 ^ 32 := by
  unfold crc32Round
  split
  · exact Nat.xor_lt_two_pow (by norm_num) (by omega)
  · omega

theorem crc32Round_inj (c d : Nat) (hc : c < 2 ^ 32) (hd : d < 2 ^ 32)
    (h : crc32Round c = crc32Round d) : c = d := by
  unfold crc32Round at h
  by_cases h1 : c % 2 = 1 <;> by_cases h2 : d % 2 = 1
  · rw [if_pos h1, if_pos h2] at h
    have := xor_left_cancel_nat _ _ _ h
    omega
  · rw [if_pos h1, if_neg h2] at h
    have hge := xor_poly_high (c / 2) (by omega)
    rw [h] at hge
    omega
  · rw [if_neg h1, if_pos h2] at h
    have hge := xor_poly_high (d / 2) (by omega)
    rw [← h] at hge
    omega
  · rw [if_neg h1, if_neg h2] at h
    omega

theorem xor_div_two (a b : Nat) : (a ^^^ b) / 2 = (a / 2) ^^^ (b / 2) := by
  apply Nat.eq_of_testBit_eq
  intro i
  rw [Nat.testBit_div_two, Nat.testBit_xor, Nat.testBit_xor, Nat.testBit_div_two,
      Nat.testBit_div_two]

theorem xor_mod_two (a b : Nat) : (a ^^^ b) % 2 = 1 ↔ ((a % 2 = 1) ↔ ¬(b % 2 = 1)) := by
  have hx := Nat.testBit_xor a b 0
  simp only [Nat.testBit_zero] at hx
  rcases Nat.mod_two_eq_zero_or_one a with ha | ha <;>
    rcases Nat.mod_two_eq_zero_or_one b with hb | hb <;>
      simp [ha, hb] at hx ⊢ <;> omega

theorem crc32Round_linear (a b : Nat) :
    crc32Round (a ^^^ b) = crc32Round a ^^^ crc32Round b := by
  have hswap : ∀ x y z : Nat, x ^^^ (y ^^^ z) = y ^^^ (x ^^^ z) := by
    intro x y z
    rw [← Nat.xor_assoc, Nat.xor_comm x y, Nat.xor_assoc]
  unfold crc32Round
  by_cases h1 : a % 2 = 1 <;> by_cases h2 : b % 2 = 1
  · rw [if_neg (by rw [xor_mod_two]; simp [h1, h2]), if_pos h1, if_pos h2]
    simp [xor_div_two, Nat.xor_assoc, Nat.xor_comm, hswap, Nat.xor_self, Nat.zero_xor,
      Nat.xor_zero]
  · rw [if_pos (by rw [xor_mod_two]; simp [h1, h2]), if_pos h1, if_neg h2]
    simp [xor_div_two, Nat.xor_assoc, Nat.xor_comm, hswap, Nat.xor_self, Nat.zero_xor,
      Nat.xor_zero]
  · rw [if_pos (by rw [xor_mod_two]; simp [h1, h2]), if_neg h1, if_pos h2]
    simp [xor_div_two, Nat.xor_assoc, Nat.xor_comm, hswap, Nat.xor_self, Nat.zero_xor,
      Nat.xor_zero]
  · rw [if_neg (by rw [xor_mod_two]; simp [h1, h2]), if_neg h1, if_neg h2]
    exact xor_div_two a b

theorem crc32Rounds_lt (n c : Nat) (h : c < 2 ^ 32) : crc32Rounds n c < 2 ^ 32 := by
  induction n generalizing c with
  | zero => exact h
  | succ m ih => exact ih _ (crc32Round_lt c h)

theorem crc32Rounds_inj (n c d : Nat) (hc : c < 2 ^ 32) (hd : d < 2 ^ 32)
    (h : crc32Rounds n c = crc32Rounds n d) : c = d := by
  induction n generalizing c d with
  | zero => exact h
  | succ m ih =>
    exact crc32Round_inj c d hc hd
      (ih _ _ (crc32Round_lt c hc) (crc32Round_lt d hd) h)

theorem crc32Rounds_linear (n a b : Nat) :
    crc32Rounds n (a ^^^ b) = crc32Rounds n a ^^^ crc32Rounds n b := by
  induction n generalizing a b with
  | zero => rfl
  | succ m ih =>
    show crc32Rounds m (crc32Round (a ^^^ b)) = _
    rw [crc32Round_linear, ih]
    rfl

theorem crc32Rounds_two_pow_mul (k : Nat) : ∀ h : Nat, crc32Rounds k (2 ^ k * h) = h := by
  induction k with
  | zero => intro h; simp [crc32Rounds]
  | succ m ih =>
    intro h
    show crc32Rounds m (crc32Round (2 ^ (m + 1) * h)) = h
    have heq : 2 ^ (m + 1) * h = 2 * (2 ^ m * h) := by ring
    unfold crc32Round
    rw [if_neg (by omega), heq]
    rw [show 2 * (2 ^ m * h) / 2 = 2 ^ m * h by omega]
    exact ih h

theorem xor_mod_mul_div (c : Nat) : (c % 256) ^^^ (256 * (c / 256)) = c := by
  apply Nat.eq_of_testBit_eq
  intro i
  rw [Nat.testBit_xor]
  have h1 : (c % 256).testBit i = (decide (i < 8) && c.testBit i) := by
    have h := Nat.testBit_mod_two_pow c 8 i
    norm_num at h
    exact h
  have h2 : (256 * (c / 256)).testBit i = (decide (8 ≤ i) && c.testBit i) := by
    rw [show (256 : Nat) * (c / 256) = (c >>> 8) <<< 8 by
      rw [Nat.shiftRight_eq_div_pow, Nat.shiftLeft_eq]
      ring_nf]
    rw [Nat.testBit_shiftLeft, Nat.testBit_shiftRight]
    by_cases hge : 8 ≤ i
    · simp [hge, ge_iff_le, Nat.add_sub_cancel' hge]
    · simp [hge, ge_iff_le]
  rw [h1, h2]
  by_cases hlt : i < 8
  · have h8 : ¬ 8 ≤ i := by omega
    simp [hlt, h8]
  · have h8 : 8 ≤ i := by omega
    simp [hlt, h8]

theorem xor_mod_256 (a b : Nat) : (a ^^^ b) % 256 = (a % 256) ^^^ (b % 256) := by
  apply Nat.eq_of_testBit_eq
  intro i
  have h := Nat.testBit_mod_two_pow (a ^^^ b) 8 i
  have ha := Nat.testBit_mod_two_pow a 8 i
  have hb := Nat.testBit_mod_two_pow b 8 i
  norm_num at h ha hb
  rw [h, Nat.testBit_xor, ha, hb]
  by_cases hlt : i < 8 <;> simp [hlt]

theorem crc32Update_eq (crc u : Nat) :
    crc32Update crc u = crc32Rounds 8 (crc ^^^ (u % 256)) := by
  unfold crc32Update CRC32_TABLE
  have harg : (crc ^^^ (u % 256)) % 256 = (crc % 256) ^^^ (u % 256) := by
    rw [xor_mod_256]
    congr 1
    omega
  rw [harg]
  conv_rhs => rw [← xor_mod_mul_div crc, Nat.xor_assoc,
    Nat.xor_comm (256 * (crc / 256)) (u % 256), ← Nat.xor_assoc, crc32Rounds_linear]
  rw [show (256 : Nat) * (crc / 256) = 2 ^ 8 * (crc / 256) by norm_num]
  rw [crc32Rounds_two_pow_mul 8 (crc / 256)]

theorem crc32Update_lt (crc u : Nat) (h : crc < 2 ^ 32) : crc32Update crc u < 2 ^ 32 := by
  rw [crc32Update_eq]
  exact crc32Rounds_lt 8 _ (Nat.xor_lt_two_pow h (by omega))

theorem crc32Update_inj (u c d : Nat) (hc : c < 2 ^ 32) (hd : d < 2 ^ 32)
    (h : crc32Update c u = crc32Update d u) : c = d := by
  rw [crc32Update_eq, crc32Update_eq] at h
  have h2 := crc32Rounds_inj 8 _ _ (Nat.xor_lt_two_pow hc (by omega))
    (Nat.xor_lt_two_pow hd (by omega)) h
  exact xor_right_cancel_nat _ _ _ h2

theorem crc32Update_byte_ne (c u v : Nat) (hc : c < 2 ^ 32) (hne : u % 256 ≠ v % 256) :
    crc32Update c u ≠ crc32Update c v := by
  rw [crc32Update_eq, crc32Update_eq]
  intro h
  have h2 := crc32Rounds_inj 8 _ _ (Nat.xor_lt_two_pow hc (by omega))
    (Nat.xor_lt_two_pow hc (by omega)) h
  exact hne (xor_left_cancel_nat _ _ _ h2)

theorem foldl_crc32Update_lt (l : JStr) : ∀ c : Nat, c < 2 ^ 32 →
    l.foldl crc32Update c < 2 ^ 32 := by
  induction l with
  | nil => intro c h; exact h
  | cons u t ih => intro c h; exact ih _ (crc32Update_lt c u h)

theorem foldl_crc32Update_inj (l : JStr) : ∀ c d : Nat, c < 2 ^ 32 → d < 2 ^ 32 →
    l.foldl crc32Update c = l.foldl crc32Update d → c = d := by
  induction l with
  | nil => intro c d _ _ h; exact h
  | cons u t ih =>
    intro c d hc hd h
    exact crc32Update_inj u c d hc hd
      (ih _ _ (crc32Update_lt c u hc) (crc32Update_lt d u hd) h)

theorem crc_fold_byte_ne (p t : JStr) (u v : Nat) (hne : u % 256 ≠ v % 256) :
    (p ++ u :: t).foldl crc32Update 0xFFFFFFFF ≠ (p ++ v :: t).foldl crc32Update 0xFFFFFFFF := by
  rw [List.foldl_append, List.foldl_append]
  intro h
  have hc : p.foldl crc32Update 0xFFFFFFFF < 2 ^ 32 :=
    foldl_crc32Update_lt p 0xFFFFFFFF (by norm_num)
  have h2 := foldl_crc32Update_inj t _ _
    (crc32Update_lt _ u hc) (crc32Update_lt _ v hc) h
  exact crc32Update_byte_ne _ u v hc hne h2

theorem unhex_toHexAux (f : Nat) : ∀ n acc : Nat, n < 16 ^ f →
    List.foldl (fun a c => 16 * a + (hexVal c).getD 0) acc (toHexAux f n)
      = acc * 16 ^ (toHexAux f n).length + n := by
  induction f with
  | zero =>
    intro n acc h
    have hn : n = 0 := by omega
    subst hn
    simp [toHexAux]
  | succ m ih =>
    intro n acc h
    rw [toHexAux]
    by_cases h16 : n < 16
    · rw [if_pos h16]
      simp [hexVal_hexDigitChar n h16]
      ring
    · rw [if_neg h16]
      have hdiv : n / 16 < 16 ^ m := by
        rw [Nat.div_lt_iff_lt_mul (by norm_num)]
        calc n < 16 ^ (m + 1) := h
          _ = 16 ^ m * 16 := by ring
      rw [List.foldl_append, ih (n / 16) acc hdiv]
      simp [hexVal_hexDigitChar (n % 16) (by omega), List.length_append]
      have hmod : 16 * (n / 16) + n % 16 = n := by omega
      generalize (toHexAux m (n / 16)).length = L
      rw [pow_succ]
      generalize (16 : Nat) ^ L = K
      calc 16 * (acc * K + n / 16) + n % 16
          = acc * (K * 16) + (16 * (n / 16) + n % 16) := by ring
        _ = acc * (K * 16) + n := by rw [hmod]

/-- Folding the hex-digit accumulator over a run of `'0'` characters from
accumulator `0` stays at `0`. -/
theorem unhex_replicate_zero (k : Nat) :
    List.foldl (fun a c => 16 * a + (hexVal c).getD 0) 0 (List.replicate k 48) = 0 := by
  induction k with
  | zero => rfl
  | succ m ih => simpa [List.replicate_succ, hexVal] using ih

/-- Parsing back the 8-digit zero-padded hex rendering recovers the number. -/
theorem unhex_padStart8 (n : Nat) (h : n < 2 ^ 32) :
    List.foldl (fun a c => 16 * a + (hexVal c).getD 0) 0 (padStart8 (toHexString n)) = n := by
  have h16 : n < 16 ^ 8 := by norm_num at h ⊢; omega
  rw [padStart8, List.foldl_append, unhex_replicate_zero, toHexString,
    unhex_toHexAux 8 n 0 h16]
  simp

/-- The zero-padded hex rendering is injective below `2^32`. -/
theorem padStart8_toHexString_inj (a b : Nat) (ha : a < 2 ^ 32) (hb : b < 2 ^ 32)
    (h : padStart8 (toHexString a) = padStart8 (toHexString b)) : a = b := by
  have := congrArg (List.foldl (fun a c => 16 * a + (hexVal c).getD 0) 0) h
  rwa [unhex_padStart8 a ha, unhex_padStart8 b hb] at this

/-- Changing one code unit of the input to a different low byte changes the
rendered CRC32 checksum. -/
theorem calculateCRC32_inj_of_byte_ne (p t : JStr) (u v : Nat)
    (hne : u % 256 ≠ v % 256) :
    calculateCRC32 (p ++ u :: t) ≠ calculateCRC32 (p ++ v :: t) := by
  intro h
  have hflt : ∀ l : JStr, List.foldl crc32Update 0xFFFFFFFF l < 2 ^ 32 :=
    fun l => foldl_crc32Update_lt l 0xFFFFFFFF (by norm_num)
  have hx : ∀ l : JStr, List.foldl crc32Update 0xFFFFFFFF l ^^^ 0xFFFFFFFF < 2 ^ 32 :=
    fun l => Nat.xor_lt_two_pow (hflt l) (by norm_num)
  have heq := padStart8_toHexString_inj _ _ (hx (p ++ u :: t)) (hx (p ++ v :: t)) h
  have heq2 : List.foldl crc32Update 0xFFFFFFFF (p ++ u :: t)
      = List.foldl crc32Update 0xFFFFFFFF (p ++ v :: t) :=
    xor_right_cancel_nat _ _ _ heq
  exact crc_fold_byte_ne p t u v hne heq2

/-- A decode of a canonical three-field payload that succeeded forces the
field values: non-empty serial, the fixed source tag, and the matching
checksum. -/
theorem decode_valid_inversion (s src cs : JStr)
    (h : decodeQRPayload (jsonStringify (mkPayload s src cs)) = .ok ⟨true, .jstr s, none⟩) :
    s ≠ [] ∧ src = srcTag ∧ cs = calculateCRC32 (s ++ srcTag) := by
  unfold decodeQRPayload at h
  rw [jsonParse_stringify_payload] at h
  dsimp only [mkPayload, propAccess] at h
  rw [lookupLast_payload_s, lookupLast_payload_src, lookupLast_payload_cs] at h
  repeat' split at h
  all_goals simp_all [strictEqStr, truthy, jsToString]

theorem set_getD : ∀ (l : JStr) (n u : Nat), n < l.length → (l.set n u).getD n 0 = u := by
  intro l
  induction l with
  | nil => intro n u h; simp at h
  | cons a t ih =>
    intro n u h
    cases n with
    | zero => rfl
    | succ m =>
      simp only [List.set, List.getD, List.get?, List.length_cons] at *
      exact ih m u (by omega)

theorem set_ne_of_getD_ne (l : JStr) (n u : Nat) (hn : n < l.length)
    (hne : u ≠ l.getD n 0) : l.set n u ≠ l := by
  intro h
  exact hne (by rw [← set_getD l n u hn, h])

theorem set_eq_take_cons_drop : ∀ (l : JStr) (n u : Nat), n < l.length →
    l.set n u = l.take n ++ u :: l.drop (n + 1) := by
  intro l
  induction l with
  | nil => intro n u h; simp at h
  | cons a t ih =>
    intro n u h
    cases n with
    | zero => rfl
    | succ m =>
      simp only [List.set, List.take, List.drop, List.cons_append, List.cons.injEq,
        true_and]
      exact ih m u (by simpa using Nat.lt_of_succ_lt_succ (by simpa using h))

theorem take_getD_drop : ∀ (l : JStr) (n : Nat), n < l.length →
    l.take n ++ l.getD n 0 :: l.drop (n + 1) = l := by
  intro l
  induction l with
  | nil => intro n h; simp at h
  | cons a t ih =>
    intro n h
    cases n with
    | zero => rfl
    | succ m =>
      simp only [List.take, List.getD, List.get?, List.drop, List.cons_append,
        List.cons.injEq, true_and]
      exact ih m (by simpa using Nat.lt_of_succ_lt_succ (by simpa using h))

theorem set_ne_nil (l : JStr) (n u : Nat) (h : l ≠ []) : l.set n u ≠ [] := by
  intro hc
  have := congrArg List.length hc
  simp only [List.length_set, List.length_nil] at this
  exact h (List.eq_nil_of_length_eq_zero this)

/-- Changing one code unit of the serial to one with a different low byte
changes the checksum of `serial ++ srcTag`. -/
theorem calculateCRC32_set_ne (s : JStr) (i u : Nat) (hi : i < s.length)
    (hb : u % 256 ≠ s.getD i 0 % 256) :
    calculateCRC32 (s.set i u ++ srcTag) ≠ calculateCRC32 (s ++ srcTag) := by
  have h1 : s.set i u ++ srcTag = s.take i ++ u :: (s.drop (i + 1) ++ srcTag) := by
    rw [set_eq_take_cons_drop s i u hi]; simp
  have h2 : s ++ srcTag = s.take i ++ s.getD i 0 :: (s.drop (i + 1) ++ srcTag) := by
    conv_lhs => rw [← take_getD_drop s i hi]
    simp
  rw [h1, h2]
  exact calculateCRC32_inj_of_byte_ne _ _ u (s.getD i 0) hb

/-- C9 — Corrected.  For a canonical payload accepted as valid by
`decodeQRPayload`, (1) changing any single character of `cs` to a different
character yields ChecksumMismatch, and (2) changing any single character of
`src` to a different character yields UnknownSource, as the spec claims; but
for `s` the code masks each code unit to its low byte inside
`calculateCRC32` (`charCodeAt(i) & 0xFF`), so only a change that alters the
low byte of the code unit is guaranteed to yield ChecksumMismatch (3); a
change to a different character with the same low byte leaves the payload
valid. -/
theorem c9_single_character_sensitivity (s src cs : JStr) (i u : Nat)
    (hvalid : decodeQRPayload (jsonStringify (mkPayload s src cs)) = .ok ⟨true, .jstr s, none⟩) :
    (i < cs.length → u ≠ cs.getD i 0 →
        decodeQRPayload (jsonStringify (mkPayload s src (cs.set i u)))
          = .ok ⟨false, .jnull, some .checksumMismatch⟩)
  ∧ (i < src.length → u ≠ src.getD i 0 →
        decodeQRPayload (jsonStringify (mkPayload s (src.set i u) cs))
          = .ok ⟨false, .jnull, some .unknownSource⟩)
  ∧ (i < s.length → u % 256 ≠ s.getD i 0 % 256 →
        decodeQRPayload (jsonStringify (mkPayload (s.set i u) src cs))
          = .ok ⟨false, .jnull, some .checksumMismatch⟩) := by
  obtain ⟨hs, hsrc, hcs⟩ := decode_valid_inversion s src cs hvalid
  subst hsrc
  subst hcs
  refine ⟨fun hi hne => ?_, fun hi hne => ?_, fun hi hb => ?_⟩
  · have hcne : calculateCRC32 (s ++ srcTag) ≠ [] := calculateCRC32_ne_nil _
    rw [decode_stringify_payload s srcTag _ hs (by decide)
        (set_ne_nil _ i u hcne)]
    rw [if_neg (by simp),
        if_pos (by simpa using set_ne_of_getD_ne _ i u hi hne)]
  · rw [decode_stringify_payload s (srcTag.set i u) _ hs
        (set_ne_nil _ i u (by decide)) (calculateCRC32_ne_nil _)]
    rw [if_pos (by simpa using set_ne_of_getD_ne _ i u hi hne)]
  · rw [decode_stringify_payload (s.set i u) srcTag _ (set_ne_nil _ i u hs)
        (by decide) (calculateCRC32_ne_nil _)]
    rw [if_neg (by simp),
        if_pos (by simpa using (calculateCRC32_set_ne s i u hi hb).symm)]

/-- C9 counterexample to the unrestricted claim: the serial `"a"` (code unit
97) encodes to a valid payload, and replacing its single character by `'š'`
(code unit 353 = 97 + 256, a different character with the same low byte)
leaves the checksum computation unchanged, so the altered payload still
decodes as valid instead of failing with ChecksumMismatch. -/
theorem c9_counterexample_low_byte_alias :
    decodeQRPayload (jsonStringify (mkPayload [97] srcTag (calculateCRC32 ([97] ++ srcTag))))
      = .ok ⟨true, .jstr [97], none⟩
  ∧ ([97] : JStr).set 0 353 = [353]
  ∧ (353 : Nat) ≠ 97
  ∧ decodeQRPayload (jsonStringify (mkPayload [353] srcTag (calculateCRC32 ([97] ++ srcTag))))
      = .ok ⟨true, .jstr [353], none⟩ :=
  ⟨rfl, rfl, by decide, rfl⟩

theorem c9_witness :
    (decodeQRPayload (jsonStringify (mkPayload [97] srcTag (calculateCRC32 ([97] ++ srcTag))))
        = .ok ⟨true, .jstr [97], none⟩
      ∧ 0 < (calculateCRC32 ([97] ++ srcTag)).length
      ∧ (120 : Nat) ≠ (calculateCRC32 ([97] ++ srcTag)).getD 0 0)
  ∧ decodeQRPayload (jsonStringify (mkPayload [97] srcTag
        ((calculateCRC32 ([97] ++ srcTag)).set 0 120)))
      = .ok ⟨false, .jnull, some .checksumMismatch⟩ :=
  ⟨⟨rfl, by decide, by decide⟩,
    (c9_single_character_sensitivity [97] srcTag (calculateCRC32 ([97] ++ srcTag)) 0 120
      (by rfl)).1 (by decide) (by decide)⟩
